import Mathlib

/-!
# Button / LED firmware for the STM32F411 "blackpill" (`src/main.c`)

A shallow embedding of `main` and of the register macros it uses.

* Registers are `uint32_t` cells at fixed addresses; the register file is a map from
  address to word, and a word is a natural number below `2 ^ 32`.
* The macros are C `int` expressions.  They are represented by their 32-bit two's
  complement bit pattern, which is what the conversion to `uint32_t` in `reg &= ...`,
  `reg |= ...` and `*p = ...` produces: `<<` keeps the low 32 bits, `~` flips all 32 bits.
* The loop counters `i`, `j` are C `int`s and are kept as integers; every increment in
  the program is guarded by `i < 5` or `j < 1000`, so none of them can overflow.
-/

namespace Blackpill

/-! ## Words and the register file -/

/-- The C expression `a << k` on 32-bit operands: the low 32 bits of the shifted value. -/
def shl32 (a k : Nat) : Nat := (a <<< k) % 2 ^ 32

/-- The C expression `~a` on a 32-bit operand: all 32 bits flipped. -/
def not32 (a : Nat) : Nat := a ^^^ (2 ^ 32 - 1)

/-- The register file: address to 32-bit word. -/
abbrev Mem := Nat → Nat

/-- Every cell of the register file holds a 32-bit value. -/
def WF (m : Mem) : Prop := ∀ a, m a < 2 ^ 32

/-- Read through a register pointer: `*p`. -/
def load (m : Mem) (a : Nat) : Nat := m a

/-- Write through a register pointer: `*p = v`. -/
def store (m : Mem) (a v : Nat) : Mem := fun x => if x = a then v else m x

/-! ## Pre-processor definitions -/

def STM32_RCC_BASE : Nat := 0x40023800
def STM32_GPIOA_BASE : Nat := 0x40020000
def STM32_GPIOC_BASE : Nat := 0x40020800

def STM32_RCC_AHB1ENR_OFFSET : Nat := 0x0030
def STM32_GPIO_MODER_OFFSET : Nat := 0x0000
def STM32_GPIO_OTYPER_OFFSET : Nat := 0x0004
def STM32_GPIO_PUPDR_OFFSET : Nat := 0x000c
def STM32_GPIO_IDR_OFFSET : Nat := 0x0010
def STM32_GPIO_ODR_OFFSET : Nat := 0x0014
def STM32_GPIO_BSRR_OFFSET : Nat := 0x0018

def STM32_RCC_AHB1ENR : Nat := STM32_RCC_BASE + STM32_RCC_AHB1ENR_OFFSET

def STM32_GPIOC_MODER : Nat := STM32_GPIOC_BASE + STM32_GPIO_MODER_OFFSET
def STM32_GPIOC_OTYPER : Nat := STM32_GPIOC_BASE + STM32_GPIO_OTYPER_OFFSET
def STM32_GPIOC_PUPDR : Nat := STM32_GPIOC_BASE + STM32_GPIO_PUPDR_OFFSET
def STM32_GPIOC_ODR : Nat := STM32_GPIOC_BASE + STM32_GPIO_ODR_OFFSET
def STM32_GPIOC_BSRR : Nat := STM32_GPIOC_BASE + STM32_GPIO_BSRR_OFFSET

def STM32_GPIOA_MODER : Nat := STM32_GPIOA_BASE + STM32_GPIO_MODER_OFFSET
def STM32_GPIOA_PUPDR : Nat := STM32_GPIOA_BASE + STM32_GPIO_PUPDR_OFFSET
def STM32_GPIOA_IDR : Nat := STM32_GPIOA_BASE + STM32_GPIO_IDR_OFFSET

/-- Bit 0: IO port A clock enable, `(1 << 0)`. -/
def RCC_AHB1ENR_GPIOAEN : Nat := shl32 1 0
/-- Bit 2: IO port C clock enable, `(1 << 2)`. -/
def RCC_AHB1ENR_GPIOCEN : Nat := shl32 1 2

def GPIO_MODER_INPUT : Nat := 0
def GPIO_MODER_OUTPUT : Nat := 1
def GPIO_MODER_ALT : Nat := 2
def GPIO_MODER_ANALOG : Nat := 3

/-- The macro `GPIO_MODER_SHIFT(n)`, `(n << 1)`. -/
def GPIO_MODER_SHIFT (n : Nat) : Nat := shl32 n 1
/-- The macro `GPIO_MODER_MASK(n)`, `(3 << GPIO_MODER_SHIFT(n))`. -/
def GPIO_MODER_MASK (n : Nat) : Nat := shl32 3 (GPIO_MODER_SHIFT n)

def GPIO_OTYPER_PP : Nat := 0
def GPIO_OTYPER_OD : Nat := 1

/-- The macro `GPIO_OT_SHIFT(n)`, `(n)`. -/
def GPIO_OT_SHIFT (n : Nat) : Nat := n
/-- The macro `GPIO_OT_MASK(n)`, `(1 << GPIO_OT_SHIFT(n))`. -/
def GPIO_OT_MASK (n : Nat) : Nat := shl32 1 (GPIO_OT_SHIFT n)

def GPIO_PUPDR_NONE : Nat := 0
def GPIO_PUPDR_PULLUP : Nat := 1
def GPIO_PUPDR_PULLDOWN : Nat := 2

/-- The macro `GPIO_PUPDR_SHIFT(n)`, `(n << 1)`. -/
def GPIO_PUPDR_SHIFT (n : Nat) : Nat := shl32 n 1
/-- The macro `GPIO_PUPDR_MASK(n)`, `(3 << GPIO_PUPDR_SHIFT(n))`. -/
def GPIO_PUPDR_MASK (n : Nat) : Nat := shl32 3 (GPIO_PUPDR_SHIFT n)

/-- The macro `GPIO_IDR_SHIFT(n)`, `(n)`. -/
def GPIO_IDR_SHIFT (n : Nat) : Nat := n
/-- The macro `GPIO_IDR_MASK(n)`, `(1 << GPIO_IDR_SHIFT(n))`. -/
def GPIO_IDR_MASK (n : Nat) : Nat := shl32 1 (GPIO_IDR_SHIFT n)

/-- The macro `GPIO_BSRR_SET(n)`, `(1 << (n))`. -/
def GPIO_BSRR_SET (n : Nat) : Nat := shl32 1 n
/-- The macro `GPIO_BSRR_RESET(n)`, `(1 << ((n) + 16))`. -/
def GPIO_BSRR_RESET (n : Nat) : Nat := shl32 1 (n + 16)

def DEBOUNCE_COUNT : Int := 5
def DEBOUNCE_DELAY : Int := 1000

/-! ## `main`: the initializer (lines 144-183) -/

/-- Lines 146-148, "Habilita clock GPIOA". -/
def enableClockA (m : Mem) : Mem :=
  let reg := load m STM32_RCC_AHB1ENR
  let reg := reg ||| RCC_AHB1ENR_GPIOAEN
  store m STM32_RCC_AHB1ENR reg

/-- Lines 152-154, "Habilita clock GPIOC". -/
def enableClockC (m : Mem) : Mem :=
  let reg := load m STM32_RCC_AHB1ENR
  let reg := reg ||| RCC_AHB1ENR_GPIOCEN
  store m STM32_RCC_AHB1ENR reg

/-- Lines 158-166, "Configra PA0 como entrada pull-up on e pull-down off". -/
def configPA0 (m : Mem) : Mem :=
  let reg := load m STM32_GPIOA_MODER
  let reg := reg &&& not32 (GPIO_MODER_MASK 0)
  let reg := reg ||| shl32 GPIO_MODER_INPUT (GPIO_MODER_SHIFT 0)
  let m := store m STM32_GPIOA_MODER reg
  let reg := load m STM32_GPIOA_PUPDR
  let reg := reg &&& not32 (GPIO_PUPDR_MASK 0)
  let reg := reg ||| shl32 GPIO_PUPDR_PULLUP (GPIO_PUPDR_SHIFT 0)
  store m STM32_GPIOA_PUPDR reg

/-- Lines 170-183, "Configura PC13 como saida pull-up off e pull-down off". -/
def configPC13 (m : Mem) : Mem :=
  let reg := load m STM32_GPIOC_MODER
  let reg := reg &&& not32 (GPIO_MODER_MASK 13)
  let reg := reg ||| shl32 GPIO_MODER_OUTPUT (GPIO_MODER_SHIFT 13)
  let m := store m STM32_GPIOC_MODER reg
  let reg := load m STM32_GPIOC_OTYPER
  let reg := reg &&& not32 (GPIO_OT_MASK 13)
  let reg := reg ||| shl32 GPIO_OTYPER_PP (GPIO_OT_SHIFT 13)
  let m := store m STM32_GPIOC_OTYPER reg
  let reg := load m STM32_GPIOC_PUPDR
  let reg := reg &&& not32 (GPIO_PUPDR_MASK 13)
  let reg := reg ||| shl32 GPIO_PUPDR_NONE (GPIO_PUPDR_SHIFT 13)
  store m STM32_GPIOC_PUPDR reg

/-- Everything `main` does before entering `while(1)`. -/
def init (m : Mem) : Mem :=
  configPC13 (configPA0 (enableClockC (enableClockA m)))

/-! ## `main`: the polling loop (lines 185-203) -/

/-- Lines 188-196: the `if`/`else` on the button bit and the write to `GPIOC_BSRR`. -/
def pollDecision (m : Mem) : Mem :=
  if (load m STM32_GPIOA_IDR &&& GPIO_IDR_MASK 0) = 0 then
    store m STM32_GPIOC_BSRR (GPIO_BSRR_SET 13)
  else
    store m STM32_GPIOC_BSRR (GPIO_BSRR_RESET 13)

/-- Line 201, `for (j = 0; j < DEBOUNCE_DELAY; j++);`, from the loop test onward, with the
current `j` and the number of increments made so far; `n` bounds the passes still to be
made.  Returns the final `j` and the number of increments. -/
def innerLoopFrom : Nat → Int → Nat → Int × Nat
  | 0, j, steps => (j, steps)
  | n + 1, j, steps =>
    if j < DEBOUNCE_DELAY then innerLoopFrom n (j + 1) (steps + 1) else (j, steps)

/-- The inner loop entered at its test.  The bound handed to `innerLoopFrom` is the
distance of `j` from `DEBOUNCE_DELAY`, so the loop always runs until its test fails
(`innerLoop_unfold`). -/
def innerLoop (j : Int) (steps : Nat) : Int × Nat :=
  innerLoopFrom (DEBOUNCE_DELAY - j).toNat j steps

/-- Lines 199-202, `while (i < DEBOUNCE_COUNT) { i++; for (...); }`, from the loop test
onward; `n` bounds the passes still to be made.  `trace` lists, oldest first, how many
increments the inner loop made in each outer iteration so far.  Returns the final `i`, the
final `j` and the trace. -/
def delayLoopFrom : Nat → Int → Int → List Nat → Int × Int × List Nat
  | 0, i, j, trace => (i, j, trace)
  | n + 1, i, j, trace =>
    if i < DEBOUNCE_COUNT then
      let i := i + 1
      let r := innerLoop 0 0
      delayLoopFrom n i r.1 (trace ++ [r.2])
    else (i, j, trace)

/-- The delay loop entered at its test.  The bound handed to `delayLoopFrom` is the
distance of `i` from `DEBOUNCE_COUNT`, so the loop always runs until its test fails
(`delayLoop_unfold`). -/
def delayLoop (i j : Int) (trace : List Nat) : Int × Int × List Nat :=
  delayLoopFrom (DEBOUNCE_COUNT - i).toNat i j trace

/-- The register file together with the locals `i` and `j` of `main`. -/
structure Frame where
  mem : Mem
  i : Int
  j : Int

/-- One pass through the body of `while(1)` (lines 187-202): the LED decision, then the
delay.  Returns the frame at the end of the pass and the trace of the delay. -/
def pollIteration (s : Frame) : Frame × List Nat :=
  let mem := pollDecision s.mem
  let d := delayLoop s.i s.j []
  ({ mem := mem, i := d.1, j := d.2.1 }, d.2.2)

/-- Successive passes through `while(1)`, one for each value the hardware presents on
`GPIOA_IDR`.  Returns the last frame and the delay trace of every pass. -/
def pollLoop : List Nat → Frame → Frame × List (List Nat)
  | [], s => (s, [])
  | v :: vs, s =>
    let r := pollIteration { s with mem := store s.mem STM32_GPIOA_IDR v }
    let rest := pollLoop vs r.1
    (rest.1, r.2 :: rest.2)

/-- The frame on entry to `while(1)`: registers initialised, `j = 0` by its declaration,
`i` holding whatever value `i0` its storage has (it is declared without an initializer). -/
def entryFrame (m : Mem) (i0 : Int) : Frame :=
  { mem := init m, i := i0, j := 0 }

/-! ## `main` from `while(1)` on, as a machine stepping between control points -/

/-- Control points of `main` after the initializer. -/
inductive Pc where
  /-- Line 185, the test of `while(1)`. -/
  | loopTest
  /-- Line 188, the `if` on the button bit. -/
  | decision
  /-- Line 199, the test of `while (i < DEBOUNCE_COUNT)`. -/
  | outerTest
  /-- Line 201, the test `j < DEBOUNCE_DELAY` of the `for` loop. -/
  | innerTest
  /-- Line 207, `return EXIT_FAILURE` has been executed. -/
  | returned
  deriving DecidableEq

/-- The machine state: register file, the locals `i` and `j`, the control point, and the
list of stores the program has made through register pointers since entering `while(1)`,
oldest first, each as (address, value). -/
structure MState where
  mem : Mem
  i : Int
  j : Int
  pc : Pc
  writes : List (Nat × Nat)

/-- A store through a register pointer, `*p = v`, recorded in the list of stores. -/
def MState.write (s : MState) (a v : Nat) : MState :=
  { s with mem := store s.mem a v, writes := s.writes ++ [(a, v)] }

/-- One step of `main` from a control point to the next.  `v` is the value the hardware
presents on `GPIOA_IDR`; only the step that reads the register looks at it.
* `loopTest`: the condition of `while(1)` is the constant `1`; were it zero, control would
  fall through to `return EXIT_FAILURE`.
* `decision`: lines 188-196, one store to `GPIOC_BSRR` in either branch.
* `outerTest`: line 199 and, when the test holds, `i++` and the `j = 0` of the `for`.
* `innerTest`: line 201, the test and `j++`.
* `returned`: `main` has returned; nothing more happens. -/
def step (v : Nat) (s : MState) : MState :=
  match s.pc with
  | Pc.loopTest =>
    if (1 : Int) ≠ 0 then { s with pc := Pc.decision } else { s with pc := Pc.returned }
  | Pc.decision =>
    let s := { s with mem := store s.mem STM32_GPIOA_IDR v }
    if (load s.mem STM32_GPIOA_IDR &&& GPIO_IDR_MASK 0) = 0 then
      { s.write STM32_GPIOC_BSRR (GPIO_BSRR_SET 13) with pc := Pc.outerTest }
    else
      { s.write STM32_GPIOC_BSRR (GPIO_BSRR_RESET 13) with pc := Pc.outerTest }
  | Pc.outerTest =>
    if s.i < DEBOUNCE_COUNT then { s with i := s.i + 1, j := 0, pc := Pc.innerTest }
    else { s with pc := Pc.loopTest }
  | Pc.innerTest =>
    if s.j < DEBOUNCE_DELAY then { s with j := s.j + 1 } else { s with pc := Pc.outerTest }
  | Pc.returned => s

/-- The machine run over a sequence of hardware input values, one per step. -/
def runInputs : List Nat → MState → MState
  | [], s => s
  | v :: vs, s => runInputs vs (step v s)

/-- The machine state on entry to `while(1)`: the frame `entryFrame m i0`, at the test of
`while(1)`, with no store recorded yet. -/
def start (m : Mem) (i0 : Int) : MState :=
  { mem := (entryFrame m i0).mem, i := (entryFrame m i0).i, j := (entryFrame m i0).j,
    pc := Pc.loopTest, writes := [] }

/-- The states `main` can be in, from `s0`, whatever the hardware presents at each step. -/
inductive Reachable (s0 : MState) : MState → Prop where
  | refl : Reachable s0 s0
  | next (v : Nat) (s : MState) : Reachable s0 s → Reachable s0 (step v s)

/-- Number of steps from a state inside a pass of `while(1)` to the next arrival at the
test of `while(1)`: what is left of the inner loop, then of the outer loop
(1002 steps for each outer iteration still to come, and its final failing test). -/
def stepsToLoopTest (s : MState) : Nat :=
  match s.pc with
  | Pc.loopTest => 0
  | Pc.decision => 1 + ((DEBOUNCE_COUNT - s.i).toNat * 1002 + 1)
  | Pc.outerTest => (DEBOUNCE_COUNT - s.i).toNat * 1002 + 1
  | Pc.innerTest => (DEBOUNCE_DELAY - s.j).toNat + 1 + ((DEBOUNCE_COUNT - s.i).toNat * 1002 + 1)
  | Pc.returned => 0

/-- Number of steps of one whole pass of `while(1)` that starts with counter value `i`:
the test of `while(1)`, the decision, and the delay. -/
def passSteps (i : Int) : Nat := 2 + ((DEBOUNCE_COUNT - i).toNat * 1002 + 1)

/-- One whole pass of `while(1)` from its test, the hardware presenting `v` throughout. -/
def runPass (v : Nat) (s : MState) : MState :=
  runInputs (List.replicate (passSteps s.i) v) s

/-- The state in which a pass of `while(1)`, now at state `s`, arrives back at the test of
`while(1)` when the hardware presents `v`. -/
def passEnd (v : Nat) (s : MState) : MState :=
  match s.pc with
  | Pc.loopTest => s
  | Pc.decision =>
    { mem := pollDecision (store s.mem STM32_GPIOA_IDR v),
      i := max s.i 5,
      j := if s.i < 5 then 1000 else s.j,
      pc := Pc.loopTest,
      writes := s.writes ++
        [(STM32_GPIOC_BSRR, load (pollDecision (store s.mem STM32_GPIOA_IDR v))
          STM32_GPIOC_BSRR)] }
  | Pc.outerTest =>
    { s with i := max s.i 5, j := if s.i < 5 then 1000 else s.j, pc := Pc.loopTest }
  | Pc.innerTest =>
    { s with i := max s.i 5, j := if s.i < 5 then 1000 else max s.j 1000,
             pc := Pc.loopTest }
  | Pc.returned => s

/-! ## Reading bit fields, and sample register files -/

/-- The `w`-bit field of the word `r` whose lowest bit is bit `lo`. -/
def field (r lo w : Nat) : Nat := (r >>> lo) % 2 ^ w

/-- A register file with every bit of every register set, except that the button pin
(bit 0 of `GPIOA_IDR`) reads low. -/
def pressedMem : Mem := fun a => if a = STM32_GPIOA_IDR then 0xFFFFFFFE else 0xFFFFFFFF

/-- A register file with every register zero, except that the button pin reads high. -/
def releasedMem : Mem := fun a => if a = STM32_GPIOA_IDR then 1 else 0

/-- The pin configuration the initializer establishes: PA0 input with pull-up, PC13
push-pull output without pull resistor, and both port clocks enabled. -/
def PinConfig (m : Mem) : Prop :=
  field (load m STM32_GPIOA_MODER) 0 2 = GPIO_MODER_INPUT ∧
  field (load m STM32_GPIOA_PUPDR) 0 2 = GPIO_PUPDR_PULLUP ∧
  field (load m STM32_GPIOC_MODER) 26 2 = GPIO_MODER_OUTPUT ∧
  field (load m STM32_GPIOC_OTYPER) 13 1 = GPIO_OTYPER_PP ∧
  field (load m STM32_GPIOC_PUPDR) 26 2 = GPIO_PUPDR_NONE ∧
  (load m STM32_RCC_AHB1ENR).testBit 0 = true ∧
  (load m STM32_RCC_AHB1ENR).testBit 2 = true

/-! ## Bit-level facts about the C operators -/

theorem shl32_lt (a k : Nat) : shl32 a k < 2 ^ 32 := by
  unfold shl32
  exact Nat.mod_lt _ (by norm_num)

theorem testBit_shl32 (a k i : Nat) :
    (shl32 a k).testBit i = (decide (i < 32) && (decide (k ≤ i) && a.testBit (i - k))) := by
  unfold shl32
  rw [Nat.testBit_mod_two_pow, Nat.testBit_shiftLeft]

theorem testBit_not32 (a i : Nat) :
    (not32 a).testBit i = (a.testBit i ^^ decide (i < 32)) := by
  unfold not32
  rw [Nat.testBit_xor, Nat.testBit_two_pow_sub_one]

theorem testBit_high {r i : Nat} (hr : r < 2 ^ 32) (hi : 32 ≤ i) : r.testBit i = false :=
  Nat.testBit_lt_two_pow (lt_of_lt_of_le hr (Nat.pow_le_pow_right (by norm_num) hi))

theorem testBit_field (r lo w i : Nat) :
    (field r lo w).testBit i = (decide (i < w) && r.testBit (lo + i)) := by
  unfold field
  rw [Nat.testBit_mod_two_pow, Nat.testBit_shiftRight]

theorem testBit_small {v w i : Nat} (hv : v < 2 ^ w) (hi : w ≤ i) : v.testBit i = false :=
  Nat.testBit_lt_two_pow (lt_of_lt_of_le hv (Nat.pow_le_pow_right (by norm_num) hi))

/-- The read-modify-write idiom `reg &= ~(ones << s); reg |= (v << s);` with a `w`-bit
field of ones: bits `s .. s+w-1` become those of `v`, all other bits are those of `r`. -/
theorem testBit_rmw {r v s w : Nat} (hr : r < 2 ^ 32) (hv : v < 2 ^ w) (hs : s + w ≤ 32)
    (i : Nat) :
    ((r &&& not32 (shl32 (2 ^ w - 1) s)) ||| shl32 v s).testBit i =
      if s ≤ i ∧ i < s + w then v.testBit (i - s) else r.testBit i := by
  rw [Nat.testBit_or, Nat.testBit_and, testBit_not32, testBit_shl32, testBit_shl32,
    Nat.testBit_two_pow_sub_one]
  by_cases h32 : i < 32
  · by_cases h1 : s ≤ i
    · by_cases h2 : i < s + w
      · have h3 : i - s < w := by omega
        simp [h32, h1, h2, h3]
      · have h3 : ¬ i - s < w := by omega
        have h4 : v.testBit (i - s) = false := testBit_small hv (by omega)
        simp [h32, h1, h2, h3, h4]
    · simp [h32, h1]
  · have h5 : r.testBit i = false := testBit_high hr (by omega)
    have h6 : ¬ (s ≤ i ∧ i < s + w) := by omega
    simp [h32, h5, h6]

/-- Reading back the `w`-bit field just written by the read-modify-write idiom. -/
theorem field_rmw {r v s w : Nat} (hr : r < 2 ^ 32) (hv : v < 2 ^ w) (hs : s + w ≤ 32) :
    field ((r &&& not32 (shl32 (2 ^ w - 1) s)) ||| shl32 v s) s w = v := by
  apply Nat.eq_of_testBit_eq
  intro i
  rw [testBit_field, testBit_rmw hr hv hs]
  by_cases hi : i < w
  · have h1 : s ≤ s + i ∧ s + i < s + w := by omega
    have h2 : s + i - s = i := by omega
    simp [hi, h1, h2]
  · have h3 : v.testBit i = false := testBit_small hv (by omega)
    simp [hi, h3]

theorem rmw_lt {r v s w : Nat} (hr : r < 2 ^ 32) :
    ((r &&& not32 (shl32 (2 ^ w - 1) s)) ||| shl32 v s) < 2 ^ 32 :=
  Nat.or_lt_two_pow (lt_of_le_of_lt Nat.and_le_left hr) (shl32_lt v s)

/-! ## The register file after each part of the initializer -/

theorem load_store_same (m : Mem) (a v : Nat) : load (store m a v) a = v := by
  simp [load, store]

theorem load_store_ne (m : Mem) {a b : Nat} (v : Nat) (h : b ≠ a) :
    load (store m a v) b = load m b := by
  simp [load, store, h]

theorem init_RCC_AHB1ENR (m : Mem) :
    load (init m) STM32_RCC_AHB1ENR =
      (load m STM32_RCC_AHB1ENR ||| RCC_AHB1ENR_GPIOAEN) ||| RCC_AHB1ENR_GPIOCEN := by
  simp [init, configPC13, configPA0, enableClockC, enableClockA, load, store,
    STM32_RCC_AHB1ENR, STM32_GPIOA_MODER, STM32_GPIOA_PUPDR, STM32_GPIOC_MODER,
    STM32_GPIOC_OTYPER, STM32_GPIOC_PUPDR, STM32_RCC_BASE, STM32_GPIOA_BASE,
    STM32_GPIOC_BASE, STM32_RCC_AHB1ENR_OFFSET, STM32_GPIO_MODER_OFFSET,
    STM32_GPIO_OTYPER_OFFSET, STM32_GPIO_PUPDR_OFFSET]

theorem init_GPIOA_MODER (m : Mem) :
    load (init m) STM32_GPIOA_MODER =
      (load m STM32_GPIOA_MODER &&& not32 (GPIO_MODER_MASK 0)) |||
        shl32 GPIO_MODER_INPUT (GPIO_MODER_SHIFT 0) := by
  simp [init, configPC13, configPA0, enableClockC, enableClockA, load, store,
    STM32_RCC_AHB1ENR, STM32_GPIOA_MODER, STM32_GPIOA_PUPDR, STM32_GPIOC_MODER,
    STM32_GPIOC_OTYPER, STM32_GPIOC_PUPDR, STM32_RCC_BASE, STM32_GPIOA_BASE,
    STM32_GPIOC_BASE, STM32_RCC_AHB1ENR_OFFSET, STM32_GPIO_MODER_OFFSET,
    STM32_GPIO_OTYPER_OFFSET, STM32_GPIO_PUPDR_OFFSET]

theorem init_GPIOA_PUPDR (m : Mem) :
    load (init m) STM32_GPIOA_PUPDR =
      (load m STM32_GPIOA_PUPDR &&& not32 (GPIO_PUPDR_MASK 0)) |||
        shl32 GPIO_PUPDR_PULLUP (GPIO_PUPDR_SHIFT 0) := by
  simp [init, configPC13, configPA0, enableClockC, enableClockA, load, store,
    STM32_RCC_AHB1ENR, STM32_GPIOA_MODER, STM32_GPIOA_PUPDR, STM32_GPIOC_MODER,
    STM32_GPIOC_OTYPER, STM32_GPIOC_PUPDR, STM32_RCC_BASE, STM32_GPIOA_BASE,
    STM32_GPIOC_BASE, STM32_RCC_AHB1ENR_OFFSET, STM32_GPIO_MODER_OFFSET,
    STM32_GPIO_OTYPER_OFFSET, STM32_GPIO_PUPDR_OFFSET]

theorem init_GPIOC_MODER (m : Mem) :
    load (init m) STM32_GPIOC_MODER =
      (load m STM32_GPIOC_MODER &&& not32 (GPIO_MODER_MASK 13)) |||
        shl32 GPIO_MODER_OUTPUT (GPIO_MODER_SHIFT 13) := by
  simp [init, configPC13, configPA0, enableClockC, enableClockA, load, store,
    STM32_RCC_AHB1ENR, STM32_GPIOA_MODER, STM32_GPIOA_PUPDR, STM32_GPIOC_MODER,
    STM32_GPIOC_OTYPER, STM32_GPIOC_PUPDR, STM32_RCC_BASE, STM32_GPIOA_BASE,
    STM32_GPIOC_BASE, STM32_RCC_AHB1ENR_OFFSET, STM32_GPIO_MODER_OFFSET,
    STM32_GPIO_OTYPER_OFFSET, STM32_GPIO_PUPDR_OFFSET]

theorem init_GPIOC_OTYPER (m : Mem) :
    load (init m) STM32_GPIOC_OTYPER =
      (load m STM32_GPIOC_OTYPER &&& not32 (GPIO_OT_MASK 13)) |||
        shl32 GPIO_OTYPER_PP (GPIO_OT_SHIFT 13) := by
  simp [init, configPC13, configPA0, enableClockC, enableClockA, load, store,
    STM32_RCC_AHB1ENR, STM32_GPIOA_MODER, STM32_GPIOA_PUPDR, STM32_GPIOC_MODER,
    STM32_GPIOC_OTYPER, STM32_GPIOC_PUPDR, STM32_RCC_BASE, STM32_GPIOA_BASE,
    STM32_GPIOC_BASE, STM32_RCC_AHB1ENR_OFFSET, STM32_GPIO_MODER_OFFSET,
    STM32_GPIO_OTYPER_OFFSET, STM32_GPIO_PUPDR_OFFSET]

theorem init_GPIOC_PUPDR (m : Mem) :
    load (init m) STM32_GPIOC_PUPDR =
      (load m STM32_GPIOC_PUPDR &&& not32 (GPIO_PUPDR_MASK 13)) |||
        shl32 GPIO_PUPDR_NONE (GPIO_PUPDR_SHIFT 13) := by
  simp [init, configPC13, configPA0, enableClockC, enableClockA, load, store,
    STM32_RCC_AHB1ENR, STM32_GPIOA_MODER, STM32_GPIOA_PUPDR, STM32_GPIOC_MODER,
    STM32_GPIOC_OTYPER, STM32_GPIOC_PUPDR, STM32_RCC_BASE, STM32_GPIOA_BASE,
    STM32_GPIOC_BASE, STM32_RCC_AHB1ENR_OFFSET, STM32_GPIO_MODER_OFFSET,
    STM32_GPIO_OTYPER_OFFSET, STM32_GPIO_PUPDR_OFFSET]

/-- The initializer does not touch any address other than the six it configures. -/
theorem init_other (m : Mem) (a : Nat) (h1 : a ≠ STM32_RCC_AHB1ENR)
    (h2 : a ≠ STM32_GPIOA_MODER) (h3 : a ≠ STM32_GPIOA_PUPDR) (h4 : a ≠ STM32_GPIOC_MODER)
    (h5 : a ≠ STM32_GPIOC_OTYPER) (h6 : a ≠ STM32_GPIOC_PUPDR) :
    load (init m) a = load m a := by
  simp [init, configPC13, configPA0, enableClockC, enableClockA, load, store, h1, h2, h3,
    h4, h5, h6]

theorem WF_pressedMem : WF pressedMem := by
  intro a
  unfold pressedMem
  split <;> decide

theorem WF_releasedMem : WF releasedMem := by
  intro a
  unfold releasedMem
  split <;> decide

/-! ## The polling decision -/

/-- The test `(*pGPIOA_IDR & GPIO_IDR_MASK(0)) == 0` looks at bit 0 only. -/
theorem idr_test_iff (v : Nat) : (v &&& GPIO_IDR_MASK 0) = 0 ↔ v.testBit 0 = false := by
  have hmask : GPIO_IDR_MASK 0 = 1 := by decide
  rw [hmask, Nat.and_one_is_mod, Nat.testBit_zero]
  have h2 : v % 2 < 2 := Nat.mod_lt _ (by norm_num)
  constructor
  · intro h
    simp [h]
  · intro h
    have h3 : ¬ v % 2 = 1 := by simpa using h
    omega

theorem pollDecision_BSRR (m : Mem) :
    load (pollDecision m) STM32_GPIOC_BSRR =
      if (load m STM32_GPIOA_IDR).testBit 0 = false then GPIO_BSRR_SET 13
      else GPIO_BSRR_RESET 13 := by
  unfold pollDecision
  by_cases h : (load m STM32_GPIOA_IDR).testBit 0 = false
  · rw [if_pos ((idr_test_iff _).2 h), if_pos h, load_store_same]
  · rw [if_neg (fun h0 => h ((idr_test_iff _).1 h0)), if_neg h, load_store_same]

/-- C1: for every 32-bit value `v` read from `GPIOA_IDR`, the `if`/`else` of the polling
loop writes `GPIO_BSRR_SET(13) = 1 << 13` to `GPIOC_BSRR` when bit 0 of `v` is clear and
`GPIO_BSRR_RESET(13) = 1 << 29` when bit 0 of `v` is set; any other input value with the
same bit 0 gives the same write, so the other 31 bits have no influence.  That write is
the register effect of one pass through the loop body. -/
theorem C1_poll_decision (m : Mem) (v : Nat) (hv : v < 2 ^ 32)
    (hread : load m STM32_GPIOA_IDR = v) :
    (v.testBit 0 = false → load (pollDecision m) STM32_GPIOC_BSRR = GPIO_BSRR_SET 13) ∧
    (v.testBit 0 = true → load (pollDecision m) STM32_GPIOC_BSRR = GPIO_BSRR_RESET 13) ∧
    GPIO_BSRR_SET 13 = 1 <<< 13 ∧ GPIO_BSRR_RESET 13 = 1 <<< 29 ∧
    (∀ m' : Mem, load m' STM32_GPIOA_IDR < 2 ^ 32 →
      (load m' STM32_GPIOA_IDR).testBit 0 = v.testBit 0 →
      load (pollDecision m') STM32_GPIOC_BSRR = load (pollDecision m) STM32_GPIOC_BSRR) ∧
    (∀ i j : Int, (pollIteration { mem := m, i := i, j := j }).1.mem = pollDecision m) := by
  have _ := hv
  refine ⟨?_, ?_, by decide, by decide, ?_, fun _ _ => rfl⟩
  · intro h
    rw [pollDecision_BSRR, hread, if_pos h]
  · intro h
    rw [pollDecision_BSRR, hread, if_neg (by simp [h])]
  · intro m' _ h
    rw [pollDecision_BSRR, pollDecision_BSRR, hread, h]

/-- Witness for C1: all-ones input except bit 0, so the button reads pressed and the
LED-ON mask is written. -/
theorem C1_poll_decision_witness :
    load (pollDecision pressedMem) STM32_GPIOC_BSRR = GPIO_BSRR_SET 13 :=
  (C1_poll_decision pressedMem 0xFFFFFFFE (by decide) (by decide)).1 (by decide)

/-! ## The configuration established by the initializer -/

/-- C2: for every initial register state, after the initializer bits [1:0] of
`GPIOA_MODER` are `0b00` (`GPIO_MODER_INPUT`) and bits [1:0] of `GPIOA_PUPDR` are `0b01`
(`GPIO_PUPDR_PULLUP`), whatever those fields held before: PA0 is an input with pull-up. -/
theorem C2_input_pin_config (m : Mem) (hm : WF m) :
    field (load (init m) STM32_GPIOA_MODER) 0 2 = GPIO_MODER_INPUT ∧
    field (load (init m) STM32_GPIOA_PUPDR) 0 2 = GPIO_PUPDR_PULLUP ∧
    GPIO_MODER_INPUT = 0 ∧ GPIO_PUPDR_PULLUP = 1 := by
  refine ⟨?_, ?_, rfl, rfl⟩
  · rw [init_GPIOA_MODER]
    exact field_rmw (s := 0) (w := 2) (hm _) (by decide) (by decide)
  · rw [init_GPIOA_PUPDR]
    exact field_rmw (s := 0) (w := 2) (hm _) (by decide) (by decide)

/-- Witness for C2: both fields of PA0 start as `0b11` and end as `0b00` and `0b01`. -/
theorem C2_input_pin_config_witness :
    field (load pressedMem STM32_GPIOA_MODER) 0 2 = 3 ∧
    field (load pressedMem STM32_GPIOA_PUPDR) 0 2 = 3 ∧
    field (load (init pressedMem) STM32_GPIOA_MODER) 0 2 = GPIO_MODER_INPUT ∧
    field (load (init pressedMem) STM32_GPIOA_PUPDR) 0 2 = GPIO_PUPDR_PULLUP :=
  ⟨by decide, by decide, (C2_input_pin_config pressedMem WF_pressedMem).1,
    (C2_input_pin_config pressedMem WF_pressedMem).2.1⟩

/-- C3: for every initial register state, after the initializer bits [27:26] of
`GPIOC_MODER` are `0b01` (`GPIO_MODER_OUTPUT`), bit 13 of `GPIOC_OTYPER` is `0`
(`GPIO_OTYPER_PP`) and bits [27:26] of `GPIOC_PUPDR` are `0b00` (`GPIO_PUPDR_NONE`),
whatever those fields held before: PC13 is a push-pull output without pull resistor. -/
theorem C3_output_pin_config (m : Mem) (hm : WF m) :
    field (load (init m) STM32_GPIOC_MODER) 26 2 = GPIO_MODER_OUTPUT ∧
    field (load (init m) STM32_GPIOC_OTYPER) 13 1 = GPIO_OTYPER_PP ∧
    (load (init m) STM32_GPIOC_OTYPER).testBit 13 = false ∧
    field (load (init m) STM32_GPIOC_PUPDR) 26 2 = GPIO_PUPDR_NONE ∧
    GPIO_MODER_OUTPUT = 1 ∧ GPIO_OTYPER_PP = 0 ∧ GPIO_PUPDR_NONE = 0 := by
  have hot : field (load (init m) STM32_GPIOC_OTYPER) 13 1 = GPIO_OTYPER_PP := by
    rw [init_GPIOC_OTYPER]
    exact field_rmw (s := 13) (w := 1) (hm _) (by decide) (by decide)
  refine ⟨?_, hot, ?_, ?_, rfl, rfl, rfl⟩
  · rw [init_GPIOC_MODER]
    exact field_rmw (s := 26) (w := 2) (hm _) (by decide) (by decide)
  · have h : (field (load (init m) STM32_GPIOC_OTYPER) 13 1).testBit 0 =
        GPIO_OTYPER_PP.testBit 0 := by rw [hot]
    rw [testBit_field] at h
    simpa [GPIO_OTYPER_PP] using h
  · rw [init_GPIOC_PUPDR]
    exact field_rmw (s := 26) (w := 2) (hm _) (by decide) (by decide)

/-- Witness for C3: the three fields of PC13 start with every bit set. -/
theorem C3_output_pin_config_witness :
    field (load pressedMem STM32_GPIOC_MODER) 26 2 = 3 ∧
    (load pressedMem STM32_GPIOC_OTYPER).testBit 13 = true ∧
    field (load pressedMem STM32_GPIOC_PUPDR) 26 2 = 3 ∧
    field (load (init pressedMem) STM32_GPIOC_MODER) 26 2 = GPIO_MODER_OUTPUT ∧
    (load (init pressedMem) STM32_GPIOC_OTYPER).testBit 13 = false ∧
    field (load (init pressedMem) STM32_GPIOC_PUPDR) 26 2 = GPIO_PUPDR_NONE :=
  ⟨by decide, by decide, by decide, (C3_output_pin_config pressedMem WF_pressedMem).1,
    (C3_output_pin_config pressedMem WF_pressedMem).2.2.1,
    (C3_output_pin_config pressedMem WF_pressedMem).2.2.2.1⟩

/-! ## Clock enable -/

theorem testBit_five (i : Nat) (h0 : i ≠ 0) (h2 : i ≠ 2) : Nat.testBit 5 i = false := by
  by_cases h1 : i = 1
  · subst h1
    decide
  · exact Nat.testBit_lt_two_pow
      (lt_of_lt_of_le (by decide : 5 < 2 ^ 3) (Nat.pow_le_pow_right (by norm_num) (by omega)))

theorem enableClocks_RCC (m : Mem) :
    load (enableClockC (enableClockA m)) STM32_RCC_AHB1ENR =
      load m STM32_RCC_AHB1ENR ||| 0b101 := by
  have hA : RCC_AHB1ENR_GPIOAEN = 1 := by decide
  have hC : RCC_AHB1ENR_GPIOCEN = 4 := by decide
  have h5 : (1 : Nat) ||| 4 = 0b101 := by decide
  simp only [enableClockC, enableClockA, load_store_same, hA, hC]
  rw [Nat.lor_assoc, h5]

/-- C4: for every initial 32-bit value `v` of `RCC_AHB1ENR`, enabling the clock of block A
and then of block C leaves `v OR 0b101` in the register: bits 0 and 2 are set, every
other bit is that of `v`, the result is again a 32-bit value, and from `v = 0` the result
is exactly 5.  The rest of the initializer leaves that value in place. -/
theorem C4_clock_enable (m : Mem) (v : Nat) (hv : v < 2 ^ 32)
    (hread : load m STM32_RCC_AHB1ENR = v) :
    load (enableClockC (enableClockA m)) STM32_RCC_AHB1ENR = v ||| 0b101 ∧
    load (init m) STM32_RCC_AHB1ENR = v ||| 0b101 ∧
    (v ||| 0b101).testBit 0 = true ∧ (v ||| 0b101).testBit 2 = true ∧
    (∀ i, i ≠ 0 → i ≠ 2 → (v ||| 0b101).testBit i = v.testBit i) ∧
    v ||| 0b101 < 2 ^ 32 ∧
    (v = 0 → load (enableClockC (enableClockA m)) STM32_RCC_AHB1ENR = 5) := by
  have hA : RCC_AHB1ENR_GPIOAEN = 1 := by decide
  have hC : RCC_AHB1ENR_GPIOCEN = 4 := by decide
  have h5 : (1 : Nat) ||| 4 = 0b101 := by decide
  refine ⟨?_, ?_, ?_, ?_, ?_, ?_, ?_⟩
  · rw [enableClocks_RCC, hread]
  · rw [init_RCC_AHB1ENR, hread, hA, hC, Nat.lor_assoc, h5]
  · rw [Nat.testBit_or]
    simp
  · rw [Nat.testBit_or]
    have : Nat.testBit 5 2 = true := by decide
    simp [this]
  · intro i h0 h2
    rw [Nat.testBit_or, testBit_five i h0 h2]
    simp
  · exact Nat.or_lt_two_pow hv (by decide)
  · intro h
    rw [enableClocks_RCC, hread, h]
    decide

/-- Witness for C4: from the all-zero register the two enables leave exactly 5. -/
theorem C4_clock_enable_witness :
    load (enableClockC (enableClockA releasedMem)) STM32_RCC_AHB1ENR = 5 :=
  (C4_clock_enable releasedMem 0 (by decide) (by decide)).2.2.2.2.2.2 rfl

/-! ## Frame of the initializer -/

/-- Bits outside the field written by the read-modify-write idiom keep their value. -/
theorem testBit_rmw_other {r v s w : Nat} (hr : r < 2 ^ 32) (hv : v < 2 ^ w)
    (hs : s + w ≤ 32) (i : Nat) (hi : ¬ (s ≤ i ∧ i < s + w)) :
    ((r &&& not32 (shl32 (2 ^ w - 1) s)) ||| shl32 v s).testBit i = r.testBit i := by
  rw [testBit_rmw hr hv hs, if_neg hi]

theorem init_RCC_other_bits (m : Mem) (i : Nat) (h0 : i ≠ 0) (h2 : i ≠ 2) :
    (load (init m) STM32_RCC_AHB1ENR).testBit i = (load m STM32_RCC_AHB1ENR).testBit i := by
  have hA : RCC_AHB1ENR_GPIOAEN = 1 := by decide
  have hC : RCC_AHB1ENR_GPIOCEN = 4 := by decide
  have h5 : (1 : Nat) ||| 4 = 5 := by decide
  rw [init_RCC_AHB1ENR, hA, hC, Nat.lor_assoc, h5, Nat.testBit_or, testBit_five i h0 h2]
  simp

/-- C5: for every initial register state the initializer changes nothing except bits 0
and 2 of `RCC_AHB1ENR`, bits [1:0] of `GPIOA_MODER` and of `GPIOA_PUPDR`, bits [27:26] of
`GPIOC_MODER` and of `GPIOC_PUPDR` and bit 13 of `GPIOC_OTYPER`: every other bit of those
six registers and every other register (among them `GPIOA_IDR` and `GPIOC_BSRR`) is left
as it was. -/
theorem C5_init_frame (m : Mem) (hm : WF m) :
    (∀ a, a ≠ STM32_RCC_AHB1ENR → a ≠ STM32_GPIOA_MODER → a ≠ STM32_GPIOA_PUPDR →
      a ≠ STM32_GPIOC_MODER → a ≠ STM32_GPIOC_OTYPER → a ≠ STM32_GPIOC_PUPDR →
      load (init m) a = load m a) ∧
    load (init m) STM32_GPIOA_IDR = load m STM32_GPIOA_IDR ∧
    load (init m) STM32_GPIOC_BSRR = load m STM32_GPIOC_BSRR ∧
    (∀ i, i ≠ 0 → i ≠ 2 →
      (load (init m) STM32_RCC_AHB1ENR).testBit i = (load m STM32_RCC_AHB1ENR).testBit i) ∧
    (∀ i, i ≠ 0 → i ≠ 1 →
      (load (init m) STM32_GPIOA_MODER).testBit i = (load m STM32_GPIOA_MODER).testBit i) ∧
    (∀ i, i ≠ 0 → i ≠ 1 →
      (load (init m) STM32_GPIOA_PUPDR).testBit i = (load m STM32_GPIOA_PUPDR).testBit i) ∧
    (∀ i, i ≠ 26 → i ≠ 27 →
      (load (init m) STM32_GPIOC_MODER).testBit i = (load m STM32_GPIOC_MODER).testBit i) ∧
    (∀ i, i ≠ 13 →
      (load (init m) STM32_GPIOC_OTYPER).testBit i =
        (load m STM32_GPIOC_OTYPER).testBit i) ∧
    (∀ i, i ≠ 26 → i ≠ 27 →
      (load (init m) STM32_GPIOC_PUPDR).testBit i = (load m STM32_GPIOC_PUPDR).testBit i) := by
  refine ⟨fun a h1 h2 h3 h4 h5 h6 => init_other m a h1 h2 h3 h4 h5 h6, ?_, ?_, ?_, ?_, ?_,
    ?_, ?_, ?_⟩
  · exact init_other m _ (by decide) (by decide) (by decide) (by decide) (by decide)
      (by decide)
  · exact init_other m _ (by decide) (by decide) (by decide) (by decide) (by decide)
      (by decide)
  · intro i h0 h2
    exact (init_RCC_other_bits m i h0 h2)
  · intro i h0 h1
    rw [init_GPIOA_MODER]
    exact testBit_rmw_other (s := 0) (w := 2) (hm _) (by decide) (by decide) i (by omega)
  · intro i h0 h1
    rw [init_GPIOA_PUPDR]
    exact testBit_rmw_other (s := 0) (w := 2) (hm _) (by decide) (by decide) i (by omega)
  · intro i h0 h1
    rw [init_GPIOC_MODER]
    exact testBit_rmw_other (s := 26) (w := 2) (hm _) (by decide) (by decide) i (by omega)
  · intro i h0
    rw [init_GPIOC_OTYPER]
    exact testBit_rmw_other (s := 13) (w := 1) (hm _) (by decide) (by decide) i (by omega)
  · intro i h0 h1
    rw [init_GPIOC_PUPDR]
    exact testBit_rmw_other (s := 26) (w := 2) (hm _) (by decide) (by decide) i (by omega)

/-- Witness for C5: in a register file with every configuration bit set, the unused
register `GPIOC_ODR` and bit 25 of `GPIOC_MODER` come through the initializer unchanged,
and `GPIOC_MODER` ends as `0xF7FFFFFF`. -/
theorem C5_init_frame_witness :
    load (init pressedMem) STM32_GPIOC_ODR = load pressedMem STM32_GPIOC_ODR ∧
    (load (init pressedMem) STM32_GPIOC_MODER).testBit 25 =
      (load pressedMem STM32_GPIOC_MODER).testBit 25 ∧
    load (init pressedMem) STM32_GPIOC_MODER = 0xF7FFFFFF :=
  ⟨(C5_init_frame pressedMem WF_pressedMem).1 STM32_GPIOC_ODR (by decide) (by decide)
      (by decide) (by decide) (by decide) (by decide),
    (C5_init_frame pressedMem WF_pressedMem).2.2.2.2.2.2.1 25 (by decide) (by decide),
    by decide⟩

/-! ## Field encodings -/

/-- C6: for every 32-bit value `r` of a mode register, the read-modify-write
`(r & ~GPIO_MODER_MASK(13)) | (GPIO_MODER_OUTPUT << GPIO_MODER_SHIFT(13))` has bits
[27:26] equal to `0b01` and every other bit equal to that of `r`; in particular the mode
bits [1:0] of pin 0 are unchanged.  This is the value `main` stores to `GPIOC_MODER`. -/
theorem C6_moder_write_preserves_pins (r : Nat) (hr : r < 2 ^ 32) :
    field ((r &&& not32 (GPIO_MODER_MASK 13)) |||
      shl32 GPIO_MODER_OUTPUT (GPIO_MODER_SHIFT 13)) 26 2 = 1 ∧
    (∀ i, i ≠ 26 → i ≠ 27 →
      ((r &&& not32 (GPIO_MODER_MASK 13)) |||
        shl32 GPIO_MODER_OUTPUT (GPIO_MODER_SHIFT 13)).testBit i = r.testBit i) ∧
    field ((r &&& not32 (GPIO_MODER_MASK 13)) |||
      shl32 GPIO_MODER_OUTPUT (GPIO_MODER_SHIFT 13)) 0 2 = field r 0 2 ∧
    (∀ m : Mem, load m STM32_GPIOC_MODER = r →
      load (configPC13 m) STM32_GPIOC_MODER =
        (r &&& not32 (GPIO_MODER_MASK 13)) |||
          shl32 GPIO_MODER_OUTPUT (GPIO_MODER_SHIFT 13)) := by
  have hbits : ∀ i, i ≠ 26 → i ≠ 27 →
      ((r &&& not32 (GPIO_MODER_MASK 13)) |||
        shl32 GPIO_MODER_OUTPUT (GPIO_MODER_SHIFT 13)).testBit i = r.testBit i := by
    intro i h0 h1
    exact testBit_rmw_other (s := 26) (w := 2) hr (by decide) (by decide) i (by omega)
  refine ⟨?_, hbits, ?_, ?_⟩
  · exact field_rmw (s := 26) (w := 2) hr (by decide) (by decide)
  · apply Nat.eq_of_testBit_eq
    intro i
    rw [testBit_field, testBit_field]
    by_cases hi : i < 2
    · rw [hbits (0 + i) (by omega) (by omega)]
    · simp [hi]
  · intro m hm
    simp [configPC13, load, store, STM32_GPIOC_MODER, STM32_GPIOC_OTYPER,
      STM32_GPIOC_PUPDR, STM32_GPIOC_BASE, STM32_GPIO_MODER_OFFSET,
      STM32_GPIO_OTYPER_OFFSET, STM32_GPIO_PUPDR_OFFSET] at hm ⊢
    rw [hm]

/-- Witness for C6: from the all-ones mode register the write leaves `0xF7FFFFFF`
in bits 27:26 = `01`, and pin 0 keeps mode `0b11`. -/
theorem C6_moder_write_preserves_pins_witness :
    field ((0xFFFFFFFF &&& not32 (GPIO_MODER_MASK 13)) |||
      shl32 GPIO_MODER_OUTPUT (GPIO_MODER_SHIFT 13)) 26 2 = 1 ∧
    field ((0xFFFFFFFF &&& not32 (GPIO_MODER_MASK 13)) |||
      shl32 GPIO_MODER_OUTPUT (GPIO_MODER_SHIFT 13)) 0 2 = field 0xFFFFFFFF 0 2 :=
  ⟨(C6_moder_write_preserves_pins 0xFFFFFFFF (by decide)).1,
    (C6_moder_write_preserves_pins 0xFFFFFFFF (by decide)).2.2.1⟩

/-- The bits of a field mask `ones << s` with `w` ones. -/
theorem testBit_mask (w s i : Nat) :
    (shl32 (2 ^ w - 1) s).testBit i = decide (s ≤ i ∧ i < s + w ∧ i < 32) := by
  rw [testBit_shl32, Nat.testBit_two_pow_sub_one, Bool.eq_iff_iff]
  simp only [Bool.and_eq_true, decide_eq_true_eq]
  omega

/-- For a pin index the shift `n << 1` does not overflow: it is `2 * n`. -/
theorem shl32_one_of_le {n : Nat} (hn : n ≤ 15) : shl32 n 1 = 2 * n := by
  unfold shl32
  rw [Nat.shiftLeft_eq]
  omega

/-- A value that fits below bit 32 after shifting is not truncated. -/
theorem shl32_of_fits {v s w : Nat} (hv : v < 2 ^ w) (hs : s + w ≤ 32) :
    shl32 v s = v * 2 ^ s := by
  unfold shl32
  rw [Nat.shiftLeft_eq]
  apply Nat.mod_eq_of_lt
  calc v * 2 ^ s < 2 ^ w * 2 ^ s := Nat.mul_lt_mul_of_pos_right hv (Nat.two_pow_pos s)
    _ = 2 ^ (w + s) := (Nat.pow_add 2 w s).symm
    _ ≤ 2 ^ 32 := Nat.pow_le_pow_right (by norm_num) (by omega)

/-- The bits of a `w`-bit value placed at bit `s`. -/
theorem testBit_placed {v s w : Nat} (hv : v < 2 ^ w) (i : Nat) (hi : ¬ (s ≤ i ∧ i < s + w)) :
    (shl32 v s).testBit i = false := by
  rw [testBit_shl32]
  by_cases h1 : s ≤ i
  · have h2 : v.testBit (i - s) = false := testBit_small hv (by omega)
    simp [h2]
  · simp [h1]

theorem field_placed {v s w : Nat} (hv : v < 2 ^ w) (hs : s + w ≤ 32) :
    field (shl32 v s) s w = v := by
  apply Nat.eq_of_testBit_eq
  intro i
  rw [testBit_field, testBit_shl32]
  by_cases hi : i < w
  · have h1 : s + i < 32 := by omega
    have h2 : s + i - s = i := by omega
    simp [hi, h1, h2]
  · have h3 : v.testBit i = false := testBit_small hv (by omega)
    simp [hi, h3]

/-- Clearing with a field mask: the bits of the field become zero, the rest stay. -/
theorem testBit_clear {r : Nat} (hr : r < 2 ^ 32) (w s i : Nat) :
    (r &&& not32 (shl32 (2 ^ w - 1) s)).testBit i =
      if s ≤ i ∧ i < s + w then false else r.testBit i := by
  rw [Nat.testBit_and, testBit_not32, testBit_mask]
  by_cases h32 : i < 32
  · by_cases h : s ≤ i ∧ i < s + w
    · have h' : s ≤ i ∧ i < s + w ∧ i < 32 := ⟨h.1, h.2, h32⟩
      simp [h, h', h32]
    · have h' : ¬ (s ≤ i ∧ i < s + w ∧ i < 32) := fun hh => h ⟨hh.1, hh.2.1⟩
      simp [h, h', h32]
  · have h5 : r.testBit i = false := testBit_high hr (by omega)
    simp [h5]

/-- The two-bit-per-pin layout shared by the mode and pull registers: shift `n << 1`,
mask `3 << (n << 1)`. -/
theorem two_bit_layout (n : Nat) (hn : n ≤ 15) :
    shl32 n 1 = 2 * n ∧
    (∀ i, (shl32 3 (shl32 n 1)).testBit i = decide (i = 2 * n ∨ i = 2 * n + 1)) ∧
    shl32 3 (shl32 n 1) = 3 * 2 ^ (2 * n) ∧
    (∀ r, r < 2 ^ 32 → ∀ i, (r &&& not32 (shl32 3 (shl32 n 1))).testBit i =
      if i = 2 * n ∨ i = 2 * n + 1 then false else r.testBit i) ∧
    (∀ v, v < 4 →
      shl32 v (shl32 n 1) = v * 2 ^ (2 * n) ∧
      field (shl32 v (shl32 n 1)) (2 * n) 2 = v ∧
      ∀ i, i ≠ 2 * n → i ≠ 2 * n + 1 → (shl32 v (shl32 n 1)).testBit i = false) := by
  have hs : shl32 n 1 = 2 * n := shl32_one_of_le hn
  have h3 : (3 : Nat) = 2 ^ 2 - 1 := by decide
  have hfit : 2 * n + 2 ≤ 32 := by omega
  rw [hs]
  refine ⟨rfl, ?_, ?_, ?_, ?_⟩
  · intro i
    rw [h3, testBit_mask, decide_eq_decide]
    omega
  · exact shl32_of_fits (w := 2) (by decide) hfit
  · intro r hr i
    rw [h3, testBit_clear hr]
    by_cases h : i = 2 * n ∨ i = 2 * n + 1
    · rw [if_pos h, if_pos (by omega)]
    · rw [if_neg h, if_neg (by omega)]
  · intro v hv
    have hv2 : v < 2 ^ 2 := by simpa using hv
    refine ⟨shl32_of_fits hv2 hfit, field_placed hv2 hfit, ?_⟩
    intro i h0 h1
    exact testBit_placed hv2 i (by omega)

/-- C7: for every pin index `n` in [0,15], `GPIO_MODER_SHIFT(n)` is `2n`,
`GPIO_MODER_MASK(n)` as a 32-bit value has exactly bits `2n` and `2n+1` set, so
`r & ~GPIO_MODER_MASK(n)` clears exactly those two bits of any 32-bit `r` and keeps the
others; for every mode value below 4, `mode << GPIO_MODER_SHIFT(n)` is `mode * 2^(2n)`,
carrying `mode` in bits [2n+1:2n] and zero elsewhere.  For `n = 15` the mask is
`0xC0000000`. -/
theorem C7_mode_field_encoding (n : Nat) (hn : n ≤ 15) :
    GPIO_MODER_SHIFT n = 2 * n ∧
    (∀ i, (GPIO_MODER_MASK n).testBit i = decide (i = 2 * n ∨ i = 2 * n + 1)) ∧
    GPIO_MODER_MASK n = 3 * 2 ^ (2 * n) ∧
    (∀ r, r < 2 ^ 32 → ∀ i, (r &&& not32 (GPIO_MODER_MASK n)).testBit i =
      if i = 2 * n ∨ i = 2 * n + 1 then false else r.testBit i) ∧
    (∀ mode, mode < 4 →
      shl32 mode (GPIO_MODER_SHIFT n) = mode * 2 ^ (2 * n) ∧
      field (shl32 mode (GPIO_MODER_SHIFT n)) (2 * n) 2 = mode ∧
      ∀ i, i ≠ 2 * n → i ≠ 2 * n + 1 →
        (shl32 mode (GPIO_MODER_SHIFT n)).testBit i = false) ∧
    GPIO_MODER_MASK 15 = 0xC0000000 := by
  unfold GPIO_MODER_MASK GPIO_MODER_SHIFT
  exact ⟨(two_bit_layout n hn).1, (two_bit_layout n hn).2.1, (two_bit_layout n hn).2.2.1,
    (two_bit_layout n hn).2.2.2.1, (two_bit_layout n hn).2.2.2.2, by decide⟩

/-- Witness for C7: the last pin, whose mask reaches bit 31. -/
theorem C7_mode_field_encoding_witness :
    GPIO_MODER_SHIFT 15 = 2 * 15 ∧ GPIO_MODER_MASK 15 = 3 * 2 ^ (2 * 15) ∧
    shl32 GPIO_MODER_ANALOG (GPIO_MODER_SHIFT 15) = GPIO_MODER_ANALOG * 2 ^ (2 * 15) :=
  ⟨(C7_mode_field_encoding 15 (by decide)).1, (C7_mode_field_encoding 15 (by decide)).2.2.1,
    ((C7_mode_field_encoding 15 (by decide)).2.2.2.2.1 GPIO_MODER_ANALOG (by decide)).1⟩

/-- C8: for every pin index `n` in [0,15] the pull field is laid out like the mode field:
`GPIO_PUPDR_SHIFT(n) = GPIO_MODER_SHIFT(n) = 2n` and
`GPIO_PUPDR_MASK(n) = GPIO_MODER_MASK(n)`, so `r & ~GPIO_PUPDR_MASK(n)` clears exactly
bits `2n` and `2n+1`, and `p << GPIO_PUPDR_SHIFT(n)` for a pull value `p` in
{0 none, 1 pull-up, 2 pull-down} carries `p` in bits [2n+1:2n] and zero elsewhere. -/
theorem C8_pull_field_encoding (n : Nat) (hn : n ≤ 15) :
    GPIO_PUPDR_SHIFT n = GPIO_MODER_SHIFT n ∧ GPIO_PUPDR_SHIFT n = 2 * n ∧
    GPIO_PUPDR_MASK n = GPIO_MODER_MASK n ∧
    (∀ i, (GPIO_PUPDR_MASK n).testBit i = decide (i = 2 * n ∨ i = 2 * n + 1)) ∧
    (∀ r, r < 2 ^ 32 → ∀ i, (r &&& not32 (GPIO_PUPDR_MASK n)).testBit i =
      if i = 2 * n ∨ i = 2 * n + 1 then false else r.testBit i) ∧
    (∀ p, p = GPIO_PUPDR_NONE ∨ p = GPIO_PUPDR_PULLUP ∨ p = GPIO_PUPDR_PULLDOWN →
      shl32 p (GPIO_PUPDR_SHIFT n) = p * 2 ^ (2 * n) ∧
      field (shl32 p (GPIO_PUPDR_SHIFT n)) (2 * n) 2 = p ∧
      ∀ i, i ≠ 2 * n → i ≠ 2 * n + 1 →
        (shl32 p (GPIO_PUPDR_SHIFT n)).testBit i = false) := by
  unfold GPIO_PUPDR_MASK GPIO_PUPDR_SHIFT GPIO_MODER_MASK GPIO_MODER_SHIFT
  refine ⟨rfl, (two_bit_layout n hn).1, rfl, (two_bit_layout n hn).2.1,
    (two_bit_layout n hn).2.2.2.1, ?_⟩
  intro p hp
  have hp4 : p < 4 := by
    rcases hp with h | h | h <;> rw [h] <;> decide
  exact (two_bit_layout n hn).2.2.2.2 p hp4

/-- Witness for C8: pull-down on the last pin lands in bits [31:30]. -/
theorem C8_pull_field_encoding_witness :
    GPIO_PUPDR_MASK 15 = GPIO_MODER_MASK 15 ∧
    shl32 GPIO_PUPDR_PULLDOWN (GPIO_PUPDR_SHIFT 15) = GPIO_PUPDR_PULLDOWN * 2 ^ (2 * 15) :=
  ⟨(C8_pull_field_encoding 15 (by decide)).2.2.1,
    ((C8_pull_field_encoding 15 (by decide)).2.2.2.2.2 GPIO_PUPDR_PULLDOWN
      (Or.inr (Or.inr rfl))).1⟩

/-- C9: for all pin indices `n`, `m` in [0,15], `GPIO_BSRR_SET(n)` is `1 << n` and
`GPIO_BSRR_RESET(n)` is `1 << (n+16)` as 32-bit values, each has exactly one bit set
(bit `n`, respectively bit `n+16`), the set mask lies in the low half-word and the reset
mask in the high half-word, and `GPIO_BSRR_SET(n) & GPIO_BSRR_RESET(m) = 0`; in
particular the two masks of one pin are disjoint. -/
theorem C9_bsrr_masks (n m : Nat) (hn : n ≤ 15) (hm : m ≤ 15) :
    GPIO_BSRR_SET n = 1 <<< n ∧ GPIO_BSRR_RESET n = 1 <<< (n + 16) ∧
    GPIO_BSRR_SET n = 2 ^ n ∧ GPIO_BSRR_RESET n = 2 ^ (n + 16) ∧
    (∀ i, (GPIO_BSRR_SET n).testBit i = decide (i = n)) ∧
    (∀ i, (GPIO_BSRR_RESET n).testBit i = decide (i = n + 16)) ∧
    GPIO_BSRR_SET n < 2 ^ 16 ∧ 2 ^ 16 ∣ GPIO_BSRR_RESET n ∧ GPIO_BSRR_RESET n < 2 ^ 32 ∧
    GPIO_BSRR_SET n &&& GPIO_BSRR_RESET m = 0 ∧
    GPIO_BSRR_SET n &&& GPIO_BSRR_RESET n = 0 := by
  have h1 : (1 : Nat) < 2 ^ 1 := by decide
  have hset : ∀ k, k ≤ 15 → GPIO_BSRR_SET k = 2 ^ k := by
    intro k hk
    unfold GPIO_BSRR_SET
    rw [shl32_of_fits h1 (by omega), Nat.one_mul]
  have hreset : ∀ k, k ≤ 15 → GPIO_BSRR_RESET k = 2 ^ (k + 16) := by
    intro k hk
    unfold GPIO_BSRR_RESET
    rw [shl32_of_fits h1 (by omega), Nat.one_mul]
  have hdisj : ∀ a b, a ≤ 15 → b ≤ 15 → GPIO_BSRR_SET a &&& GPIO_BSRR_RESET b = 0 := by
    intro a b ha hb
    apply Nat.eq_of_testBit_eq
    intro i
    rw [Nat.testBit_and, hset a ha, hreset b hb, Nat.testBit_two_pow, Nat.testBit_two_pow,
      Nat.zero_testBit]
    by_cases h : a = i
    · have h' : ¬ b + 16 = i := by omega
      simp [h']
    · simp [h]
  refine ⟨?_, ?_, hset n hn, hreset n hn, ?_, ?_, ?_, ?_, ?_, hdisj n m hn hm,
    hdisj n n hn hn⟩
  · rw [hset n hn, Nat.shiftLeft_eq, Nat.one_mul]
  · rw [hreset n hn, Nat.shiftLeft_eq, Nat.one_mul]
  · intro i
    rw [hset n hn, Nat.testBit_two_pow, decide_eq_decide]
    omega
  · intro i
    rw [hreset n hn, Nat.testBit_two_pow, decide_eq_decide]
    omega
  · rw [hset n hn]
    exact Nat.pow_lt_pow_right (by norm_num) (by omega)
  · rw [hreset n hn]
    exact pow_dvd_pow 2 (by omega)
  · rw [hreset n hn]
    exact Nat.pow_lt_pow_right (by norm_num) (by omega)

/-- Witness for C9: pin 15, whose reset mask is bit 31, against pin 0. -/
theorem C9_bsrr_masks_witness :
    GPIO_BSRR_RESET 15 = 2 ^ (15 + 16) ∧ GPIO_BSRR_SET 15 &&& GPIO_BSRR_RESET 0 = 0 :=
  ⟨(C9_bsrr_masks 15 0 (by decide) (by decide)).2.2.2.1,
    (C9_bsrr_masks 15 0 (by decide) (by decide)).2.2.2.2.2.2.2.2.2.1⟩

/-! ## The debounce delay -/

/-- The inner loop is the `for` loop of the source: it tests `j < DEBOUNCE_DELAY`, and
either increments `j` and goes round again or stops. -/
theorem innerLoop_unfold (j : Int) (steps : Nat) :
    innerLoop j steps =
      if j < DEBOUNCE_DELAY then innerLoop (j + 1) (steps + 1) else (j, steps) := by
  unfold innerLoop
  by_cases h : j < DEBOUNCE_DELAY
  · have e : (DEBOUNCE_DELAY - j).toNat = (DEBOUNCE_DELAY - (j + 1)).toNat + 1 := by
      simp only [DEBOUNCE_DELAY] at *
      omega
    rw [e, innerLoopFrom, if_pos h]
  · have e : (DEBOUNCE_DELAY - j).toNat = 0 := by
      simp only [DEBOUNCE_DELAY] at *
      omega
    rw [e, innerLoopFrom, if_neg h]

/-- The inner loop entered with `j ≤ 1000` makes `1000 - j` increments and ends with
`j = 1000`. -/
theorem innerLoop_count (k : Nat) :
    ∀ (j : Int) (steps : Nat), j ≤ 1000 → (1000 - j).toNat = k →
      innerLoop j steps = (1000, steps + k) := by
  induction k with
  | zero =>
    intro j steps hj hk
    have hj' : j = 1000 := by omega
    subst hj'
    rw [innerLoop_unfold]
    simp [DEBOUNCE_DELAY]
  | succ k ih =>
    intro j steps hj hk
    have hlt : j < DEBOUNCE_DELAY := by
      simp only [DEBOUNCE_DELAY]
      omega
    rw [innerLoop_unfold, if_pos hlt, ih (j + 1) (steps + 1) (by omega) (by omega)]
    congr 1
    omega

/-- Line 201 as executed: from `j = 0`, exactly 1000 increments, ending with `j = 1000`. -/
theorem innerLoop_zero : innerLoop 0 0 = (1000, 1000) := by
  have h := innerLoop_count 1000 0 0 (by norm_num) (by decide)
  simpa using h

/-- The delay loop is the `while` loop of the source: it tests `i < DEBOUNCE_COUNT`, and
either increments `i`, runs the inner loop from `j = 0` and goes round again, or stops. -/
theorem delayLoop_unfold (i j : Int) (trace : List Nat) :
    delayLoop i j trace =
      if i < DEBOUNCE_COUNT then
        delayLoop (i + 1) (innerLoop 0 0).1 (trace ++ [(innerLoop 0 0).2])
      else (i, j, trace) := by
  unfold delayLoop
  by_cases h : i < DEBOUNCE_COUNT
  · have e : (DEBOUNCE_COUNT - i).toNat = (DEBOUNCE_COUNT - (i + 1)).toNat + 1 := by
      simp only [DEBOUNCE_COUNT] at *
      omega
    rw [e, delayLoopFrom, if_pos h]
  · have e : (DEBOUNCE_COUNT - i).toNat = 0 := by
      simp only [DEBOUNCE_COUNT] at *
      omega
    rw [e, delayLoopFrom, if_neg h]

/-- The outer loop is skipped as soon as `i` has reached `DEBOUNCE_COUNT`. -/
theorem delayLoop_done (i j : Int) (trace : List Nat) (hi : 5 ≤ i) :
    delayLoop i j trace = (i, j, trace) := by
  have h : ¬ i < DEBOUNCE_COUNT := by
    simp only [DEBOUNCE_COUNT]
    omega
  rw [delayLoop_unfold, if_neg h]

/-- One outer iteration: `i` is incremented and the inner loop runs 1000 times. -/
theorem delayLoop_step (i j : Int) (trace : List Nat) (hi : i < 5) :
    delayLoop i j trace = delayLoop (i + 1) 1000 (trace ++ [1000]) := by
  have h : i < DEBOUNCE_COUNT := by
    simp only [DEBOUNCE_COUNT]
    omega
  rw [delayLoop_unfold, if_pos h, innerLoop_zero]

/-- C10, evaluated on the code: with `i = 0` on entry to `while(1)` and the button
released, the first pass delays 5 outer iterations of 1000 inner steps, but the second
pass delays zero outer iterations, because `i` is still 5; and with `i = 3` on entry even
the first pass delays only 2 outer iterations. -/
theorem C10_delay_only_in_first_pass :
    (pollLoop [1, 1] (entryFrame releasedMem 0)).2 = [[1000, 1000, 1000, 1000, 1000], []] ∧
    (pollLoop [1, 1] (entryFrame releasedMem 0)).1.i = 5 ∧
    (pollLoop [1] (entryFrame releasedMem 3)).2 = [[1000, 1000]] := by
  have e0 : delayLoop 0 0 [] = (5, 1000, [1000, 1000, 1000, 1000, 1000]) := by
    rw [delayLoop_step 0 0 [] (by norm_num), delayLoop_step _ _ _ (by norm_num),
      delayLoop_step _ _ _ (by norm_num), delayLoop_step _ _ _ (by norm_num),
      delayLoop_step _ _ _ (by norm_num), delayLoop_done _ _ _ (by norm_num)]
    norm_num
  have e5 : delayLoop 5 1000 [] = (5, 1000, []) := delayLoop_done _ _ _ (by norm_num)
  have e3 : delayLoop 3 0 [] = (5, 1000, [1000, 1000]) := by
    rw [delayLoop_step 3 0 [] (by norm_num), delayLoop_step _ _ _ (by norm_num),
      delayLoop_done _ _ _ (by norm_num)]
    norm_num
  simp [pollLoop, pollIteration, entryFrame, e0, e5, e3]

/-! ## The machine: no way out of `while(1)` -/

/-- A step can end in `returned` only if it started there. -/
theorem step_returned (v : Nat) (s : MState) (h : (step v s).pc = Pc.returned) :
    s.pc = Pc.returned := by
  rcases s with ⟨mem, i, j, pc, writes⟩
  cases pc
  · simp [step] at h
  · by_cases c : (load (store mem STM32_GPIOA_IDR v) STM32_GPIOA_IDR &&& GPIO_IDR_MASK 0) = 0
    · simp [step, MState.write, c] at h
    · simp [step, MState.write, c] at h
  · by_cases c : i < DEBOUNCE_COUNT
    · simp [step, c] at h
    · simp [step, c] at h
  · by_cases c : j < DEBOUNCE_DELAY
    · simp [step, c] at h
    · simp [step, c] at h
  · rfl

theorem runInputs_not_returned (inputs : List Nat) :
    ∀ s : MState, s.pc ≠ Pc.returned → (runInputs inputs s).pc ≠ Pc.returned := by
  induction inputs with
  | nil =>
    intro s hs
    exact hs
  | cons v vs ih =>
    intro s hs
    exact ih (step v s) (fun h => hs (step_returned v s h))

theorem reachable_not_returned {s0 s : MState} (h0 : s0.pc ≠ Pc.returned)
    (h : Reachable s0 s) : s.pc ≠ Pc.returned := by
  induction h with
  | refl => exact h0
  | next v t _ ih => exact fun h => ih (step_returned v t h)

theorem runInputs_reachable (inputs : List Nat) :
    ∀ s0 s : MState, Reachable s0 s → Reachable s0 (runInputs inputs s) := by
  induction inputs with
  | nil =>
    intro s0 s hs
    exact hs
  | cons v vs ih =>
    intro s0 s hs
    exact ih s0 (step v s) (Reachable.next v s hs)

/-- C11: `main` never returns.  From the entry to `while(1)`, whatever values the hardware
presents on `GPIOA_IDR`, no state the machine reaches is the `returned` state; every state
reached by running is a reachable state; and no step enters `returned` from another
control point, because the test of `while(1)` is the constant `1` and the loop body has
no exit. -/
theorem C11_never_returns (m : Mem) (i0 : Int) :
    (∀ inputs : List Nat, (runInputs inputs (start m i0)).pc ≠ Pc.returned) ∧
    (∀ s : MState, Reachable (start m i0) s → s.pc ≠ Pc.returned) ∧
    (∀ inputs : List Nat, Reachable (start m i0) (runInputs inputs (start m i0))) ∧
    (∀ (v : Nat) (s : MState), (step v s).pc = Pc.returned → s.pc = Pc.returned) ∧
    (∀ (v : Nat) (s : MState), s.pc = Pc.loopTest → (step v s).pc = Pc.decision) := by
  have h0 : (start m i0).pc ≠ Pc.returned := by simp [start]
  refine ⟨fun inputs => runInputs_not_returned inputs _ h0,
    fun s hs => reachable_not_returned h0 hs,
    fun inputs => runInputs_reachable inputs _ _ Reachable.refl,
    step_returned, ?_⟩
  intro v s hs
  rcases s with ⟨mem, i, j, pc, writes⟩
  simp only at hs
  subst hs
  simp [step]

/-- Witness for C11: after five steps from the entry, with the button released, then
pressed, the machine is at a control point of the loop and has not returned. -/
theorem C11_never_returns_witness :
    (runInputs [1, 1, 0, 0, 1] (start releasedMem 0)).pc ≠ Pc.returned ∧
    (runInputs [1, 1, 0, 0, 1] (start releasedMem 0)).pc = Pc.innerTest :=
  ⟨(C11_never_returns releasedMem 0).1 [1, 1, 0, 0, 1], by decide⟩

/-! ## The machine: one pass of `while(1)` -/

/-- Inside a pass every step brings the next test of `while(1)` one step nearer. -/
theorem stepsToLoopTest_step (v : Nat) (s : MState) (h1 : s.pc ≠ Pc.loopTest)
    (h2 : s.pc ≠ Pc.returned) : stepsToLoopTest (step v s) + 1 = stepsToLoopTest s := by
  rcases s with ⟨mem, i, j, pc, writes⟩
  cases pc
  · exact absurd rfl h1
  · by_cases c : (load (store mem STM32_GPIOA_IDR v) STM32_GPIOA_IDR &&& GPIO_IDR_MASK 0) = 0
    · simp [step, MState.write, c, stepsToLoopTest]
      omega
    · simp [step, MState.write, c, stepsToLoopTest]
      omega
  · by_cases c : i < DEBOUNCE_COUNT
    · simp only [step, c, stepsToLoopTest, if_true]
      simp only [DEBOUNCE_COUNT, DEBOUNCE_DELAY] at *
      omega
    · simp only [step, c, stepsToLoopTest, if_false]
      simp only [DEBOUNCE_COUNT] at *
      omega
  · by_cases c : j < DEBOUNCE_DELAY
    · simp only [step, c, stepsToLoopTest, if_true]
      simp only [DEBOUNCE_COUNT, DEBOUNCE_DELAY] at *
      omega
    · simp only [step, c, stepsToLoopTest, if_false]
      simp only [DEBOUNCE_COUNT, DEBOUNCE_DELAY] at *
      omega
  · exact absurd rfl h2

/-- Inside a pass a step does not change the state in which the pass will end. -/
theorem passEnd_step (v : Nat) (s : MState) (h1 : s.pc ≠ Pc.loopTest) :
    passEnd v (step v s) = passEnd v s := by
  rcases s with ⟨mem, i, j, pc, writes⟩
  cases pc
  · exact absurd rfl h1
  · by_cases c : (v &&& GPIO_IDR_MASK 0) = 0
    · simp only [step, MState.write, passEnd, pollDecision, load_store_same, c, reduceIte]
    · simp only [step, MState.write, passEnd, pollDecision, load_store_same, c, reduceIte]
  · by_cases c : i < DEBOUNCE_COUNT
    · have c' : i < 5 := by simpa [DEBOUNCE_COUNT] using c
      have e1 : max (i + 1) 5 = max i 5 := by omega
      simp [step, c, passEnd, c', e1]
    · have c' : ¬ i < 5 := by simpa [DEBOUNCE_COUNT] using c
      have e1 : max i 5 = i := by omega
      simp only [step, c, passEnd, c', e1, reduceIte]
  · by_cases c : j < DEBOUNCE_DELAY
    · have c' : j < 1000 := by simpa [DEBOUNCE_DELAY] using c
      have e1 : max (j + 1) 1000 = max j 1000 := by omega
      simp [step, c, passEnd, e1]
    · have c' : ¬ j < 1000 := by simpa [DEBOUNCE_DELAY] using c
      have e1 : max j 1000 = j := by omega
      simp [step, c, passEnd, e1]
  · rfl

theorem runInputs_replicate_succ (v n : Nat) (s : MState) :
    runInputs (List.replicate (n + 1) v) s = runInputs (List.replicate n v) (step v s) := by
  rw [List.replicate_succ, runInputs]

theorem stepsToLoopTest_eq_zero (s : MState) (h2 : s.pc ≠ Pc.returned)
    (h : stepsToLoopTest s = 0) : s.pc = Pc.loopTest := by
  rcases s with ⟨mem, i, j, pc, writes⟩
  cases pc
  · rfl
  · simp [stepsToLoopTest] at h
  · simp [stepsToLoopTest] at h
  · simp [stepsToLoopTest] at h
  · exact absurd rfl h2

/-- From a state inside a pass, `stepsToLoopTest` steps lead to the state `passEnd`, and
no earlier state is at the test of `while(1)`. -/
theorem run_to_loopTest (v n : Nat) :
    ∀ s : MState, s.pc ≠ Pc.returned → stepsToLoopTest s = n →
      runInputs (List.replicate n v) s = passEnd v s ∧
      ∀ k, k < n → (runInputs (List.replicate k v) s).pc ≠ Pc.loopTest := by
  induction n with
  | zero =>
    intro s h2 hn
    have hpc := stepsToLoopTest_eq_zero s h2 hn
    refine ⟨?_, fun k hk => absurd hk (Nat.not_lt_zero k)⟩
    rcases s with ⟨mem, i, j, pc, writes⟩
    simp only at hpc
    subst hpc
    rfl
  | succ n ih =>
    intro s h2 hn
    have h1 : s.pc ≠ Pc.loopTest := by
      intro h
      rcases s with ⟨mem, i, j, pc, writes⟩
      simp only at h
      subst h
      simp [stepsToLoopTest] at hn
    have hstep := stepsToLoopTest_step v s h1 h2
    have h2' : (step v s).pc ≠ Pc.returned := fun h => h2 (step_returned v s h)
    have hrec := ih (step v s) h2' (by omega)
    refine ⟨?_, ?_⟩
    · rw [runInputs_replicate_succ, hrec.1, passEnd_step v s h1]
    · intro k hk
      cases k with
      | zero => exact h1
      | succ k =>
        rw [runInputs_replicate_succ]
        exact hrec.2 k (by omega)

/-- One whole pass: from the test of `while(1)`, `passSteps` steps lead back to it, in the
state `passEnd` predicts from the decision point, and no state strictly in between is at
the test of `while(1)`. -/
theorem run_pass (v : Nat) (s : MState) (hpc : s.pc = Pc.loopTest) :
    runInputs (List.replicate (passSteps s.i) v) s = passEnd v { s with pc := Pc.decision } ∧
    ∀ k, 0 < k → k < passSteps s.i →
      (runInputs (List.replicate k v) s).pc ≠ Pc.loopTest := by
  have hstep : step v s = { s with pc := Pc.decision } := by
    rcases s with ⟨mem, i, j, pc, writes⟩
    simp only at hpc
    subst hpc
    simp [step]
  have hn : stepsToLoopTest { s with pc := Pc.decision } = passSteps s.i - 1 := by
    simp [stepsToLoopTest, passSteps]
    omega
  have hps : passSteps s.i = (passSteps s.i - 1) + 1 := by
    simp [passSteps]
    omega
  have hrec := run_to_loopTest v (passSteps s.i - 1) { s with pc := Pc.decision }
    (by simp) hn
  refine ⟨?_, ?_⟩
  · rw [hps, runInputs_replicate_succ, hstep]
    exact hrec.1
  · intro k hk0 hk
    obtain ⟨k', rfl⟩ : ∃ k', k = k' + 1 := ⟨k - 1, by omega⟩
    rw [runInputs_replicate_succ, hstep]
    exact hrec.2 k' (by omega)

/-! ## The delay over successive passes -/

/-- The delay loop in closed form: `i` ends as `max i 5`, and the outer loop makes
`(5 - i).toNat` iterations of 1000 inner increments each. -/
theorem delayLoop_closed (n : Nat) :
    ∀ (i j : Int) (trace : List Nat), (5 - i).toNat = n →
      delayLoop i j trace =
        (max i 5, (if i < 5 then 1000 else j), trace ++ List.replicate n 1000) := by
  induction n with
  | zero =>
    intro i j trace hn
    have hi : 5 ≤ i := by omega
    have hlt : ¬ i < 5 := by omega
    have hmax : max i 5 = i := by omega
    rw [delayLoop_done i j trace hi, hmax, if_neg hlt]
    simp
  | succ n ih =>
    intro i j trace hn
    have hi : i < 5 := by omega
    have hmax : max (i + 1) 5 = max i 5 := by omega
    rw [delayLoop_step i j trace hi, ih (i + 1) 1000 (trace ++ [1000]) (by omega), hmax,
      if_pos hi, List.replicate_succ]
    simp

theorem pollIteration_closed (s : Frame) :
    (pollIteration s).2 = List.replicate (5 - s.i).toNat 1000 ∧
    (pollIteration s).1.i = max s.i 5 ∧
    (pollIteration s).1.mem = pollDecision s.mem := by
  simp only [pollIteration, delayLoop_closed (5 - s.i).toNat s.i s.j [] rfl]
  simp

/-- Once `i` has reached 5, no later pass delays, and `i` stays where it is. -/
theorem pollLoop_later (vs : List Nat) :
    ∀ s : Frame, 5 ≤ s.i →
      (pollLoop vs s).2 = List.replicate vs.length [] ∧ (pollLoop vs s).1.i = s.i := by
  induction vs with
  | nil =>
    intro s _
    exact ⟨rfl, rfl⟩
  | cons v vs ih =>
    intro s hs
    have h0 : (5 - s.i).toNat = 0 := by omega
    have hmax : max s.i 5 = s.i := by omega
    have key : ∀ f : Frame, f.i = s.i →
        (pollIteration f).2 = [] ∧
        (pollLoop vs (pollIteration f).1).2 = List.replicate vs.length [] ∧
        (pollLoop vs (pollIteration f).1).1.i = s.i := by
      intro f hf
      have hc := pollIteration_closed f
      rw [hf, h0, hmax] at hc
      have hrec := ih (pollIteration f).1 (by rw [hc.2.1]; exact hs)
      exact ⟨hc.1, hrec.1, by rw [hrec.2, hc.2.1]⟩
    have k := key { s with mem := store s.mem STM32_GPIOA_IDR v } rfl
    refine ⟨?_, ?_⟩
    · show (pollIteration _).2 :: (pollLoop vs (pollIteration _).1).2 = _
      rw [k.1, k.2.1]
      rfl
    · show (pollLoop vs (pollIteration _).1).1.i = s.i
      exact k.2.2

/-- The delays of one or more passes from a frame whose counter is `s.i`. -/
theorem pollLoop_cons_closed (v : Nat) (vs : List Nat) (s : Frame) :
    (pollLoop (v :: vs) s).2 =
      List.replicate (5 - s.i).toNat 1000 :: List.replicate vs.length [] ∧
    (pollLoop (v :: vs) s).1.i = max s.i 5 := by
  have key : ∀ f : Frame, f.i = s.i →
      (pollIteration f).2 = List.replicate (5 - s.i).toNat 1000 ∧
      (pollLoop vs (pollIteration f).1).2 = List.replicate vs.length [] ∧
      (pollLoop vs (pollIteration f).1).1.i = max s.i 5 := by
    intro f hf
    have hc := pollIteration_closed f
    rw [hf] at hc
    have hrec := pollLoop_later vs (pollIteration f).1 (by rw [hc.2.1]; omega)
    exact ⟨hc.1, hrec.1, by rw [hrec.2, hc.2.1]⟩
  have k := key { s with mem := store s.mem STM32_GPIOA_IDR v } rfl
  refine ⟨?_, ?_⟩
  · show (pollIteration _).2 :: (pollLoop vs (pollIteration _).1).2 = _
    rw [k.1, k.2.1]
  · show (pollLoop vs (pollIteration _).1).1.i = _
    exact k.2.2

/-- C12: the delay counter is never reset.  With `i0` the value of `i` on entry to
`while(1)`, the delay of the first pass makes `max(0, 5 - i0)` outer iterations of 1000
inner steps each and leaves `i = max(i0, 5)`; the delay of any pass that starts with
`i ≥ 5`, hence of every later pass, makes no outer iteration.  Over one or more passes the
total number of inner steps is `1000 * max(0, 5 - i0)`, which is 5000 only for `i0 = 0`. -/
theorem C12_delay_counter_never_reset (m : Mem) (i0 : Int) (v : Nat) (vs : List Nat) :
    ((5 - i0).toNat : Int) = max 0 (5 - i0) ∧
    (pollIteration { entryFrame m i0 with
        mem := store (entryFrame m i0).mem STM32_GPIOA_IDR v }).2 =
      List.replicate (5 - i0).toNat 1000 ∧
    (pollIteration { entryFrame m i0 with
        mem := store (entryFrame m i0).mem STM32_GPIOA_IDR v }).1.i = max i0 5 ∧
    (∀ s : Frame, 5 ≤ s.i → (pollIteration s).2 = [] ∧ (pollIteration s).1.i = s.i) ∧
    (pollLoop (v :: vs) (entryFrame m i0)).2 =
      List.replicate (5 - i0).toNat 1000 :: List.replicate vs.length [] ∧
    (pollLoop (v :: vs) (entryFrame m i0)).1.i = max i0 5 ∧
    (((pollLoop (v :: vs) (entryFrame m i0)).2).map List.sum).sum =
      1000 * (5 - i0).toNat ∧
    (1000 * (5 - i0).toNat = 5000 ↔ i0 = 0) := by
  have hc := pollIteration_closed
    { entryFrame m i0 with mem := store (entryFrame m i0).mem STM32_GPIOA_IDR v }
  have hl := pollLoop_cons_closed v vs (entryFrame m i0)
  have hi : (entryFrame m i0).i = i0 := rfl
  rw [hi] at hl
  refine ⟨by omega, hc.1, hc.2.1, ?_, hl.1, hl.2, ?_, by omega⟩
  · intro s hs
    have h := pollIteration_closed s
    have h0 : (5 - s.i).toNat = 0 := by omega
    have hmax : max s.i 5 = s.i := by omega
    rw [h0, hmax] at h
    exact ⟨h.1, h.2.1⟩
  · rw [hl.1]
    simp [List.sum_replicate, Nat.mul_comm]

/-- Witness for C12: entering with `i = 3`, three passes delay 2, 0 and 0 outer
iterations. -/
theorem C12_delay_counter_never_reset_witness :
    (pollLoop [1, 0, 1] (entryFrame releasedMem 3)).2 = [[1000, 1000], [], []] := by
  have h := (C12_delay_counter_never_reset releasedMem 3 1 [0, 1]).2.2.2.2.1
  simpa using h

/-! ## The initializer run twice -/

theorem or_or_idem (x a c : Nat) : ((x ||| a ||| c) ||| a) ||| c = x ||| a ||| c := by
  apply Nat.eq_of_testBit_eq
  intro k
  simp only [Nat.testBit_or]
  cases x.testBit k <;> cases a.testBit k <;> cases c.testBit k <;> rfl

theorem rmw_idem (r nm v : Nat) : ((r &&& nm ||| v) &&& nm) ||| v = (r &&& nm) ||| v := by
  apply Nat.eq_of_testBit_eq
  intro k
  simp only [Nat.testBit_or, Nat.testBit_and]
  cases r.testBit k <;> cases nm.testBit k <;> cases v.testBit k <;> rfl

theorem load_init_init (m : Mem) (a : Nat) : load (init (init m)) a = load (init m) a := by
  by_cases h1 : a = STM32_RCC_AHB1ENR
  · rw [h1, init_RCC_AHB1ENR (init m), init_RCC_AHB1ENR m, or_or_idem]
  by_cases h2 : a = STM32_GPIOA_MODER
  · rw [h2, init_GPIOA_MODER (init m), init_GPIOA_MODER m, rmw_idem]
  by_cases h3 : a = STM32_GPIOA_PUPDR
  · rw [h3, init_GPIOA_PUPDR (init m), init_GPIOA_PUPDR m, rmw_idem]
  by_cases h4 : a = STM32_GPIOC_MODER
  · rw [h4, init_GPIOC_MODER (init m), init_GPIOC_MODER m, rmw_idem]
  by_cases h5 : a = STM32_GPIOC_OTYPER
  · rw [h5, init_GPIOC_OTYPER (init m), init_GPIOC_OTYPER m, rmw_idem]
  by_cases h6 : a = STM32_GPIOC_PUPDR
  · rw [h6, init_GPIOC_PUPDR (init m), init_GPIOC_PUPDR m, rmw_idem]
  exact init_other (init m) a h1 h2 h3 h4 h5 h6

/-- C14: the initializer is idempotent.  For every register state `m`, running the
configuration sequence (both clock enables, PA0 mode and pull, PC13 mode, output type and
pull) twice leaves exactly the register state that running it once leaves. -/
theorem C14_init_idempotent (m : Mem) : init (init m) = init m := by
  funext a
  exact load_init_init m a

/-! ## Frame of a pass of `while(1)` -/

theorem pollDecision_other (m : Mem) (a : Nat) (h : a ≠ STM32_GPIOC_BSRR) :
    load (pollDecision m) a = load m a := by
  unfold pollDecision
  split
  · exact load_store_ne m _ h
  · exact load_store_ne m _ h

/-- A step leaves every register other than `GPIOC_BSRR` (written by the program) and
`GPIOA_IDR` (driven by the hardware) as it was. -/
theorem step_mem_other (v : Nat) (s : MState) (a : Nat) (h1 : a ≠ STM32_GPIOC_BSRR)
    (h2 : a ≠ STM32_GPIOA_IDR) : load (step v s).mem a = load s.mem a := by
  rcases s with ⟨mem, i, j, pc, writes⟩
  cases pc
  · simp [step]
  · by_cases c : (v &&& GPIO_IDR_MASK 0) = 0
    · simp only [step, MState.write, load_store_same, c, reduceIte]
      rw [load_store_ne _ _ h1, load_store_ne _ _ h2]
    · simp only [step, MState.write, load_store_same, c, reduceIte]
      rw [load_store_ne _ _ h1, load_store_ne _ _ h2]
  · by_cases c : i < DEBOUNCE_COUNT
    · simp [step, c]
    · simp [step, c]
  · by_cases c : j < DEBOUNCE_DELAY
    · simp [step, c]
    · simp [step, c]
  · rfl

theorem reachable_mem_other {s0 s : MState} (h : Reachable s0 s) (a : Nat)
    (h1 : a ≠ STM32_GPIOC_BSRR) (h2 : a ≠ STM32_GPIOA_IDR) : load s.mem a = load s0.mem a := by
  induction h with
  | refl => rfl
  | next v t _ ih => rw [step_mem_other v t a h1 h2, ih]

/-- The initializer establishes the pin configuration. -/
theorem init_PinConfig (m : Mem) (hm : WF m) : PinConfig (init m) := by
  have hA : RCC_AHB1ENR_GPIOAEN = 1 := by decide
  have hC : RCC_AHB1ENR_GPIOCEN = 4 := by decide
  refine ⟨?_, ?_, ?_, ?_, ?_, ?_, ?_⟩
  · rw [init_GPIOA_MODER]
    exact field_rmw (s := 0) (w := 2) (hm _) (by decide) (by decide)
  · rw [init_GPIOA_PUPDR]
    exact field_rmw (s := 0) (w := 2) (hm _) (by decide) (by decide)
  · rw [init_GPIOC_MODER]
    exact field_rmw (s := 26) (w := 2) (hm _) (by decide) (by decide)
  · rw [init_GPIOC_OTYPER]
    exact field_rmw (s := 13) (w := 1) (hm _) (by decide) (by decide)
  · rw [init_GPIOC_PUPDR]
    exact field_rmw (s := 26) (w := 2) (hm _) (by decide) (by decide)
  · rw [init_RCC_AHB1ENR, hA, hC, Nat.testBit_or, Nat.testBit_or]
    simp
  · have h4 : Nat.testBit 4 2 = true := by decide
    rw [init_RCC_AHB1ENR, hA, hC, Nat.testBit_or, h4]
    simp

/-- The pin configuration only depends on the six configuration registers. -/
theorem PinConfig_of_loads {m m' : Mem} (h : PinConfig m)
    (h1 : load m' STM32_RCC_AHB1ENR = load m STM32_RCC_AHB1ENR)
    (h2 : load m' STM32_GPIOA_MODER = load m STM32_GPIOA_MODER)
    (h3 : load m' STM32_GPIOA_PUPDR = load m STM32_GPIOA_PUPDR)
    (h4 : load m' STM32_GPIOC_MODER = load m STM32_GPIOC_MODER)
    (h5 : load m' STM32_GPIOC_OTYPER = load m STM32_GPIOC_OTYPER)
    (h6 : load m' STM32_GPIOC_PUPDR = load m STM32_GPIOC_PUPDR) : PinConfig m' := by
  unfold PinConfig at *
  rw [h1, h2, h3, h4, h5, h6]
  exact h

/-- The value a pass stores to `GPIOC_BSRR` is one of the two masks of pin 13, a single
bit each. -/
theorem pass_value (m : Mem) (v : Nat) :
    (v.testBit 0 = false ∧
      load (pollDecision (store m STM32_GPIOA_IDR v)) STM32_GPIOC_BSRR = GPIO_BSRR_SET 13 ∧
      ∀ k, (GPIO_BSRR_SET 13).testBit k = decide (k = 13)) ∨
    (v.testBit 0 = true ∧
      load (pollDecision (store m STM32_GPIOA_IDR v)) STM32_GPIOC_BSRR = GPIO_BSRR_RESET 13 ∧
      ∀ k, (GPIO_BSRR_RESET 13).testBit k = decide (k = 29)) := by
  have hs : GPIO_BSRR_SET 13 = 2 ^ 13 := by decide
  have hr : GPIO_BSRR_RESET 13 = 2 ^ 29 := by decide
  have hb := pollDecision_BSRR (store m STM32_GPIOA_IDR v)
  rw [load_store_same] at hb
  by_cases h : v.testBit 0 = false
  · left
    refine ⟨h, by rw [hb, if_pos h], ?_⟩
    intro k
    rw [hs, Nat.testBit_two_pow, decide_eq_decide]
    omega
  · right
    refine ⟨by simpa using h, by rw [hb, if_neg h], ?_⟩
    intro k
    rw [hr, Nat.testBit_two_pow, decide_eq_decide]
    omega

/-- C13: frame of a pass of `while(1)`.  From the test of `while(1)`, for every register
state and every input value `v`, the pass arrives back at the test (and at no earlier
step), having made exactly one store: to `GPIOC_BSRR`, of a value with exactly one bit
set, bit 13 when the button bit of `v` is low and bit 29 when it is high.  Every register
other than `GPIOC_BSRR` and the hardware-driven `GPIOA_IDR` is unchanged, in particular
`RCC_AHB1ENR`, both `MODER`, both `PUPDR` and `OTYPER`; so in every state reachable from
the entry to `while(1)` those six registers hold what the initializer left and the pin
configuration holds. -/
theorem C13_poll_pass_frame (s : MState) (v : Nat) (hpc : s.pc = Pc.loopTest) :
    (runPass v s).pc = Pc.loopTest ∧
    (∀ k, 0 < k → k < passSteps s.i →
      (runInputs (List.replicate k v) s).pc ≠ Pc.loopTest) ∧
    (∃ val, (runPass v s).writes = s.writes ++ [(STM32_GPIOC_BSRR, val)] ∧
      ((v.testBit 0 = false ∧ val = GPIO_BSRR_SET 13 ∧
          ∀ k, val.testBit k = decide (k = 13)) ∨
        (v.testBit 0 = true ∧ val = GPIO_BSRR_RESET 13 ∧
          ∀ k, val.testBit k = decide (k = 29)))) ∧
    (runPass v s).mem = pollDecision (store s.mem STM32_GPIOA_IDR v) ∧
    (∀ a, a ≠ STM32_GPIOC_BSRR → a ≠ STM32_GPIOA_IDR →
      load (runPass v s).mem a = load s.mem a) ∧
    (load (runPass v s).mem STM32_RCC_AHB1ENR = load s.mem STM32_RCC_AHB1ENR ∧
      load (runPass v s).mem STM32_GPIOA_MODER = load s.mem STM32_GPIOA_MODER ∧
      load (runPass v s).mem STM32_GPIOA_PUPDR = load s.mem STM32_GPIOA_PUPDR ∧
      load (runPass v s).mem STM32_GPIOC_MODER = load s.mem STM32_GPIOC_MODER ∧
      load (runPass v s).mem STM32_GPIOC_OTYPER = load s.mem STM32_GPIOC_OTYPER ∧
      load (runPass v s).mem STM32_GPIOC_PUPDR = load s.mem STM32_GPIOC_PUPDR) ∧
    (∀ (m : Mem) (i0 : Int), WF m → ∀ t : MState, Reachable (start m i0) t →
      PinConfig t.mem ∧
      load t.mem STM32_RCC_AHB1ENR = load (init m) STM32_RCC_AHB1ENR ∧
      load t.mem STM32_GPIOA_MODER = load (init m) STM32_GPIOA_MODER ∧
      load t.mem STM32_GPIOA_PUPDR = load (init m) STM32_GPIOA_PUPDR ∧
      load t.mem STM32_GPIOC_MODER = load (init m) STM32_GPIOC_MODER ∧
      load t.mem STM32_GPIOC_OTYPER = load (init m) STM32_GPIOC_OTYPER ∧
      load t.mem STM32_GPIOC_PUPDR = load (init m) STM32_GPIOC_PUPDR) := by
  have hrun := run_pass v s hpc
  have hend : runPass v s = passEnd v { s with pc := Pc.decision } := hrun.1
  have hmem : (runPass v s).mem = pollDecision (store s.mem STM32_GPIOA_IDR v) := by
    rw [hend]
    rfl
  have hother : ∀ a, a ≠ STM32_GPIOC_BSRR → a ≠ STM32_GPIOA_IDR →
      load (runPass v s).mem a = load s.mem a := by
    intro a h1 h2
    rw [hmem, pollDecision_other _ a h1, load_store_ne _ _ h2]
  refine ⟨by rw [hend]; rfl, hrun.2, ?_, hmem, hother, ?_, ?_⟩
  · refine ⟨load (pollDecision (store s.mem STM32_GPIOA_IDR v)) STM32_GPIOC_BSRR, ?_, ?_⟩
    · rw [hend]
      rfl
    · rcases pass_value s.mem v with ⟨h1, h2, h3⟩ | ⟨h1, h2, h3⟩
      · exact Or.inl ⟨h1, h2, by rw [h2]; exact h3⟩
      · exact Or.inr ⟨h1, h2, by rw [h2]; exact h3⟩
  · exact ⟨hother _ (by decide) (by decide), hother _ (by decide) (by decide),
      hother _ (by decide) (by decide), hother _ (by decide) (by decide),
      hother _ (by decide) (by decide), hother _ (by decide) (by decide)⟩
  · intro m i0 hm t ht
    have hr : ∀ a, a ≠ STM32_GPIOC_BSRR → a ≠ STM32_GPIOA_IDR →
        load t.mem a = load (init m) a := fun a h1 h2 => reachable_mem_other ht a h1 h2
    have e1 := hr _ (by decide : STM32_RCC_AHB1ENR ≠ STM32_GPIOC_BSRR) (by decide)
    have e2 := hr _ (by decide : STM32_GPIOA_MODER ≠ STM32_GPIOC_BSRR) (by decide)
    have e3 := hr _ (by decide : STM32_GPIOA_PUPDR ≠ STM32_GPIOC_BSRR) (by decide)
    have e4 := hr _ (by decide : STM32_GPIOC_MODER ≠ STM32_GPIOC_BSRR) (by decide)
    have e5 := hr _ (by decide : STM32_GPIOC_OTYPER ≠ STM32_GPIOC_BSRR) (by decide)
    have e6 := hr _ (by decide : STM32_GPIOC_PUPDR ≠ STM32_GPIOC_BSRR) (by decide)
    exact ⟨PinConfig_of_loads (init_PinConfig m hm) e1 e2 e3 e4 e5 e6, e1, e2, e3, e4, e5, e6⟩

/-- Witness for C13: the first pass from the entry with the button pressed stores the
LED-ON mask, once, and is back at the test of `while(1)`. -/
theorem C13_poll_pass_frame_witness :
    (runPass 0 (start pressedMem 0)).pc = Pc.loopTest ∧
    (runPass 0 (start pressedMem 0)).mem =
      pollDecision (store (start pressedMem 0).mem STM32_GPIOA_IDR 0) ∧
    PinConfig (start pressedMem 0).mem :=
  ⟨(C13_poll_pass_frame (start pressedMem 0) 0 rfl).1,
    (C13_poll_pass_frame (start pressedMem 0) 0 rfl).2.2.2.1,
    ((C13_poll_pass_frame (start pressedMem 0) 0 rfl).2.2.2.2.2.2 pressedMem 0
      WF_pressedMem (start pressedMem 0) Reachable.refl).1⟩

/-! ## Termination of the busy-wait -/

/-- The outer loop on the machine: from its test, `1002` steps for each of the
`(5 - i).toNat` iterations still to come and one for the final failing test lead to the
test of `while(1)`, with `i` and `j` as the delay loop leaves them. -/
theorem run_delay (v : Nat) (s : MState) (hpc : s.pc = Pc.outerTest) :
    runInputs (List.replicate (1002 * (5 - s.i).toNat + 1) v) s =
      { s with i := (delayLoop s.i s.j []).1, j := (delayLoop s.i s.j []).2.1,
               pc := Pc.loopTest } := by
  have hn : stepsToLoopTest s = 1002 * (5 - s.i).toNat + 1 := by
    rcases s with ⟨mem, i, j, pc, writes⟩
    simp only at hpc
    subst hpc
    simp only [stepsToLoopTest, DEBOUNCE_COUNT]
    omega
  have h := (run_to_loopTest v _ s (by rw [hpc]; decide) hn).1
  rw [h, delayLoop_closed (5 - s.i).toNat s.i s.j [] rfl]
  rcases s with ⟨mem, i, j, pc, writes⟩
  simp only at hpc
  subst hpc
  rfl

/-- C15: the busy-wait terminates for every starting value `i0` of the counter, negative
values included.  The outer loop `while (i < 5)` stops, with its test false, after
`max(0, 5 - i0)` iterations, each raising `i` by one; each inner loop starts from `j = 0`
and stops after exactly 1000 increments with `j = 1000`; so on the machine every pass of
`while(1)` comes back to the test of `while(1)` after `1002 * max(0, 5 - i) + 3` steps,
and the next step is at the read of the input register. -/
theorem C15_busy_wait_terminates (i0 j0 : Int) (trace : List Nat) :
    delayLoop i0 j0 trace =
      (max i0 5, (if i0 < 5 then 1000 else j0),
        trace ++ List.replicate (5 - i0).toNat 1000) ∧
    ((5 - i0).toNat : Int) = max 0 (5 - i0) ∧
    ¬ (delayLoop i0 j0 trace).1 < DEBOUNCE_COUNT ∧
    (i0 < DEBOUNCE_COUNT →
      delayLoop i0 j0 trace =
        delayLoop (i0 + 1) (innerLoop 0 0).1 (trace ++ [(innerLoop 0 0).2])) ∧
    (¬ i0 < DEBOUNCE_COUNT → delayLoop i0 j0 trace = (i0, j0, trace)) ∧
    innerLoop 0 0 = (1000, 1000) ∧
    ¬ (innerLoop 0 0).1 < DEBOUNCE_DELAY ∧
    (∀ (j : Int) (steps : Nat), innerLoop j steps =
      if j < DEBOUNCE_DELAY then innerLoop (j + 1) (steps + 1) else (j, steps)) ∧
    (∀ (s : MState) (v : Nat), s.pc = Pc.outerTest →
      runInputs (List.replicate (1002 * (5 - s.i).toNat + 1) v) s =
        { s with i := (delayLoop s.i s.j []).1, j := (delayLoop s.i s.j []).2.1,
                 pc := Pc.loopTest }) ∧
    (∀ (s : MState) (v : Nat), s.pc = Pc.loopTest →
      (runPass v s).pc = Pc.loopTest ∧ (runPass v s).i = max s.i 5 ∧
      (step v (runPass v s)).pc = Pc.decision ∧
      passSteps s.i = 1002 * (5 - s.i).toNat + 3) := by
  have hclosed := delayLoop_closed (5 - i0).toNat i0 j0 trace rfl
  refine ⟨hclosed, by omega, ?_, ?_, ?_, innerLoop_zero, ?_, innerLoop_unfold,
    fun s v hpc => run_delay v s hpc, ?_⟩
  · rw [hclosed]
    simp only [DEBOUNCE_COUNT]
    omega
  · intro h
    rw [delayLoop_unfold i0 j0 trace, if_pos h]
  · intro h
    rw [delayLoop_unfold i0 j0 trace, if_neg h]
  · rw [innerLoop_zero]
    simp [DEBOUNCE_DELAY]
  · intro s v hpc
    have hend : runPass v s = passEnd v { s with pc := Pc.decision } := (run_pass v s hpc).1
    have h1 : (runPass v s).pc = Pc.loopTest := by
      rw [hend]
      rfl
    have h3 : (step v (runPass v s)).pc = Pc.decision := by
      generalize runPass v s = t at h1
      rcases t with ⟨mem, i, j, pc, writes⟩
      simp only at h1
      subst h1
      simp [step]
    refine ⟨h1, by rw [hend]; rfl, h3, ?_⟩
    simp only [passSteps, DEBOUNCE_COUNT]
    omega

/-- Witness for C15: entered with `i = -3`, the delay makes 8 outer iterations of 1000
inner increments and stops with `i = 5`, `j = 1000`. -/
theorem C15_busy_wait_terminates_witness :
    delayLoop (-3) 0 [] = (5, 1000, List.replicate 8 1000) ∧
    (runPass 1 (start releasedMem (-3))).pc = Pc.loopTest := by
  have h := (C15_busy_wait_terminates (-3) 0 []).1
  have h2 := ((C15_busy_wait_terminates (-3) 0 []).2.2.2.2.2.2.2.2.2
    (start releasedMem (-3)) 1 rfl).1
  refine ⟨?_, h2⟩
  rw [h]
  decide

end Blackpill
